import Mathlib

/-!
# Neko interpreter: the expression subsystem (`expressions.hpp`)

A shallow embedding of `src/expressions.hpp`: the variables and the scope
manager (`VariableObject`, `ScopeManager`), the function invoker
(`runWithArgs`), the postfix converter (`intoPostfixNotation`), the name
resolver (`nameDeclaration`), the binary and unary operator rules (`Process`,
`ProcessUnary`), the stack evaluator (`Calculate`) and the expression parser
(`parseExpression`), with the properties the specification states about them.

`expressions.hpp` includes `token.hpp`, `Object.hpp`, `OperationProcessing.hpp`
and `execution.hpp`.  What it uses from them (the `Token` predicates, the
`Item` constructors, the operator tables and the arithmetic helpers) is
collected in the structure `Host`, the collaborators of the parser in the
structure `Parsers`, and the statement executor is an argument of
`runWithArgs`; every definition below takes them as parameters and every
theorem holds for all of them, under the hypotheses it names.

Conventions of the embedding:

* a `std::vector` and a `std::stack` are lists; the top of a stack is the head;
* the payload behind `void *value` is a `Payload`; reading it through the
  wrong `static_cast` yields `none`;
* a computation returns `none` exactly where the C++ has no defined result:
  `top()` of an empty stack, a failed `assert`, the end of a non-void function
  reached without `return`, a payload read at the wrong type, the negation of
  the least `long long`;
* `long long` payloads are integers, `long double` payloads live in a type `F`
  supplied with the host;
* the global `scopeManager` and the registries are passed explicitly, and the
  sub-parsers return the cursor and the global state they leave;
* the loop of `parseExpression` runs on fuel, and a run that outlasts its fuel
  is told apart from one without a defined result.
-/

namespace Neko

/-! ## Data model -/

/-- Modelled from the spec: the token kinds of `token.hpp` that
`expressions.hpp` names (`Name`, `Keyword`, `EOE`, `EOL`); every other kind
is `Other`. -/
inductive TokenType
  | Name
  | Keyword
  | EOE
  | EOL
  | Other
deriving DecidableEq, Repr

/-- Modelled from the spec: a `Token` of `token.hpp`, a kind and its source
text. -/
structure Token where
  source : String
  type : TokenType
deriving DecidableEq, Repr

/-- The exception kinds used in `expressions.hpp`. -/
inductive ExceptionType
  | Nothing
  | RETURN
  | SyntaxError
  | UndefinedNameUsage
  | CallError
  | TypeError
  | OperandTypeError
  | IncorrectOperationArguments
  | OperationArgumentExcess
  | ZeroDivisionError
  | RuntimeError
  | RedefinitionError
  | FunctionArgumentLack
  | FunctionArgumentExcess
  | EndOfFunction
deriving DecidableEq, Repr

/-- An `Exception`: its kind and its line. -/
structure Exception where
  type : ExceptionType
  line : Int
deriving DecidableEq, Repr

/-- The object behind `Item::value`: `Int`, `Float`, `Bool`, `String` and
`Char` hold a `value` field; anything else (a `Function`, a class instance,
no object) is `other`. -/
inductive Payload (F : Type)
  | int (v : Int)
  | float (v : F)
  | bool (v : Bool)
  | string (v : String)
  | char (v : Char)
  | other
deriving DecidableEq, Repr

/-- Modelled from the spec: an `Item` of `Object.hpp`, with the four members
`expressions.hpp` reads: `token`, `type`, `value` and `source`. -/
structure Item (F : Type) where
  token : Token
  type : String
  value : Payload F
  source : String
deriving DecidableEq, Repr

/-- What `expressions.hpp` takes from the headers it includes. -/
structure Host (F : Type) where
  /-- The method `Token::isOperator()`. -/
  isOperator : Token → Bool
  /-- The method `Token::isUnaryOperator()`. -/
  isUnaryOperator : Token → Bool
  /-- The function `getPriority(Token)`. -/
  getPriority : Token → Int
  /-- The constructor `Item(Token)`, also the implicit conversion. -/
  itemOfToken : Token → Item F
  /-- The constructor `Item(string)`. -/
  itemOfString : String → Item F
  /-- The constructor `Item(void *, string)`. -/
  itemOfValue : Payload F → String → Item F
  /-- The line of an `Exception` built from its kind alone. -/
  defaultLine : Int
  /-- The function `toType(string)`, giving an enumerator. -/
  toType : String → Nat
  /-- The function `toString` of an enumerator. -/
  toString : Nat → String
  /-- The enumerator `IntType`. -/
  IntType : Nat
  /-- The enumerator `FloatType`. -/
  FloatType : Nat
  /-- The enumerator `OperationType`. -/
  OperationType : Nat
  /-- The table `possibleOperations` of an enumerator. -/
  possibleOperations : Nat → List String
  /-- The function `isComparisonOperation(string)`. -/
  isComparisonOperation : String → Bool
  /-- The helper `compare` on `long long`. -/
  compareInt : Int → Int → String → Bool
  /-- The helper `compare` on `long double`. -/
  compareFloat : F → F → String → Bool
  /-- The helper `compare` on `bool`. -/
  compareBool : Bool → Bool → String → Bool
  /-- The helper `compare` on `string`. -/
  compareString : String → String → String → Bool
  /-- The helper `compare` on `char`. -/
  compareChar : Char → Char → String → Bool
  /-- The helper `processOperation` on `long long`. -/
  processInt : Int → Int → String → Int
  /-- The helper `processOperation` on `long double`. -/
  processFloat : F → F → String → F
  /-- The helper `processOperation` on `bool`. -/
  processBool : Bool → Bool → String → Bool
  /-- The helper `processOperation` on `string`. -/
  processString : String → String → String → String
  /-- The helper `processOperation` on `char`. -/
  processChar : Char → Char → String → Char
  /-- The conversion of a `long long` to `long double`. -/
  floatOfInt : Int → F
  /-- The test `x == 0` on `long double`. -/
  floatIsZero : F → Bool
  /-- The negation `-x` on `long double`. -/
  floatNeg : F → F

variable {F : Type}

/-- The constructor `Exception(type)`: the exception of a kind, at the default
line. -/
def Exception.ofType (H : Host F) (t : ExceptionType) : Exception :=
  { type := t, line := H.defaultLine }

/-! ## The postfix converter -/

/-- The function `isLeftAssociative` (lines 173-176): the `assert` first, then
the test of the source text. -/
def isLeftAssociative (H : Host F) (item : Item F) : Option Bool :=
  if H.toType item.type = H.OperationType then some (decide (item.source ≠ "**")) else none

/-- The `while` loop of the operator branch of `intoPostfixNotation` (lines
189-201), on the operator stack and the output; `token` reaches
`isLeftAssociative` through the conversion `Item(Token)`. -/
def popOperators (H : Host F) (token : Token) :
    List Token → List (Item F) → Option (List Token × List (Item F))
  | [], output => some ([], output)
  | top :: operations, output =>
    if top.source = "(" then some (top :: operations, output)
    else
      match isLeftAssociative H (H.itemOfToken token) with
      | none => none
      | some left =>
        if left && decide (H.getPriority top < H.getPriority token) then
          some (top :: operations, output)
        else if !left && decide (H.getPriority top ≤ H.getPriority token) then
          some (top :: operations, output)
        else popOperators H token operations (output ++ [H.itemOfToken top])

/-- The `)` branch of `intoPostfixNotation` (lines 205-209): pop to the output
until the top is `(`, then pop that one. -/
def popToLeftBracket (H : Host F) :
    List Token → List (Item F) → Option (List Token × List (Item F))
  | [], _ => none
  | top :: operations, output =>
    if top.source ≠ "(" then popToLeftBracket H operations (output ++ [H.itemOfToken top])
    else some (operations, output)

/-- One iteration of the `for` loop of `intoPostfixNotation` (lines 183-213). -/
def postfixStep (H : Host F) (operations : List Token) (output : List (Item F))
    (item : Item F) : Option (List Token × List (Item F)) :=
  let token := item.token
  if token.source = "(" then some (token :: operations, output)
  else if H.isOperator token then
    match popOperators H token operations output with
    | none => none
    | some (operations', output') => some (token :: operations', output')
  else if token.source = ")" then popToLeftBracket H operations output
  else some (operations, output ++ [item])

/-- The `for` loop of `intoPostfixNotation` followed by the final flush of the
operator stack (lines 182-219). -/
def postfixLoop (H : Host F) :
    List (Item F) → List Token → List (Item F) → Option (List (Item F))
  | [], operations, output => some (output ++ operations.map H.itemOfToken)
  | item :: rest, operations, output =>
    match postfixStep H operations output item with
    | none => none
    | some (operations', output') => postfixLoop H rest operations' output'

/-- The function `intoPostfixNotation` (lines 178-220). -/
def intoPostfixNotation (H : Host F) (input : List (Item F)) : Option (List (Item F)) :=
  postfixLoop H input [] []

/-! ## The operator rules -/

/-- The pair `ProcessReturned` (lines 246-253): an item and an exception. -/
structure ProcessReturned (F : Type) where
  item : Item F
  exception : Exception
deriving DecidableEq, Repr

/-- The constructor `ProcessReturned(Item i, Exception e = Nothing)` at its
default second argument. -/
def ProcessReturned.ofItem (H : Host F) (i : Item F) : ProcessReturned F :=
  { item := i, exception := Exception.ofType H ExceptionType.Nothing }

/-- The constructor `ProcessReturned(Exception e)`: the item is `Item("")`. -/
def ProcessReturned.ofException (H : Host F) (e : Exception) : ProcessReturned F :=
  { item := H.itemOfString "", exception := e }

/-- Modelled from the spec: the helper `contain`, membership in a list of
strings. -/
def contain (l : List String) (x : String) : Bool :=
  decide (x ∈ l)

/-- Modelled from the spec: the helper `multiply` of `OperationProcessing.hpp`,
the string `s` concatenated `x` times (the spec defines it for `x ≥ 0`; below
zero this model gives the empty string). -/
def multiply (s : String) (x : Int) : String :=
  String.join (List.replicate x.toNat s)

/-- The payload read through `static_cast<Int *>`. -/
def Payload.asInt : Payload F → Option Int
  | Payload.int v => some v
  | _ => none

/-- The payload read through `static_cast<Float *>`. -/
def Payload.asFloat : Payload F → Option F
  | Payload.float v => some v
  | _ => none

/-- The payload read through `static_cast<Bool *>`. -/
def Payload.asBool : Payload F → Option Bool
  | Payload.bool v => some v
  | _ => none

/-- The payload read through `static_cast<String *>`. -/
def Payload.asString : Payload F → Option String
  | Payload.string v => some v
  | _ => none

/-- The payload read through `static_cast<Char *>`. -/
def Payload.asChar : Payload F → Option Char
  | Payload.char v => some v
  | _ => none

/-- The function `isNumber` (lines 255-257). -/
def isNumber (H : Host F) (item : Item F) : Bool :=
  contain [H.toString H.IntType, H.toString H.FloatType] item.type

/-- The function `possibleToProcess` (lines 259-274).  After the fourth `if`
the body ends without a `return`: the result is `none` there. -/
def possibleToProcess (H : Host F) (a b : Item F) (op : Token) : Option Bool :=
  if a.type = b.type then some true
  else if isNumber H a && isNumber H b then some true
  else if op.source = "*" ∧
      ((a.type = "Int" ∧ b.type = "String") ∨ (a.type = "String" ∧ b.type = "Int")) then
    some true
  else if op.source = "+" ∧
      ((a.type = "Char" ∧ b.type = "String") ∨ (a.type = "String" ∧ b.type = "Char")) then
    some true
  else none

/-- The condition of the first `if` of `Process` (line 278), evaluated left to
right with the short circuit of `and`. -/
def processGate (H : Host F) (a b : Item F) (op : Token) : Option Bool :=
  if a.type ≠ b.type then
    if !(isNumber H a && isNumber H b) then
      match possibleToProcess H a b op with
      | none => none
      | some possible => some (!possible)
    else some false
  else some false

/-- The `Int`, `Int` branch of `Process` (lines 311-318). -/
def processIntInt (H : Host F) (x y : Int) (op : Token) : ProcessReturned F :=
  if op.source = "/" ∧ x = 0 then
    ProcessReturned.ofException H (Exception.ofType H ExceptionType.ZeroDivisionError)
  else if H.isComparisonOperation op.source then
    ProcessReturned.ofItem H (H.itemOfValue (Payload.bool (H.compareInt x y op.source)) "Bool")
  else
    ProcessReturned.ofItem H (H.itemOfValue (Payload.int (H.processInt x y op.source)) "Int")

/-- The `Float` branch of `Process` (lines 323-329), on the two widened
operands. -/
def processFloatFloat (H : Host F) (x y : F) (op : Token) : ProcessReturned F :=
  if op.source = "/" ∧ H.floatIsZero x = true then
    ProcessReturned.ofException H (Exception.ofType H ExceptionType.ZeroDivisionError)
  else if H.isComparisonOperation op.source then
    ProcessReturned.ofItem H (H.itemOfValue (Payload.bool (H.compareFloat x y op.source)) "Bool")
  else
    ProcessReturned.ofItem H (H.itemOfValue (Payload.float (H.processFloat x y op.source)) "Float")

/-- The operand of the `Float` branch as a `long double` (lines 321-322): an
`Int` is converted, anything else is read as a `Float`. -/
def widen (H : Host F) (a : Item F) : Option F :=
  if a.type = "Int" then a.value.asInt.map H.floatOfInt else a.value.asFloat

/-- The body of `Process` after the compatibility gate (lines 281-352); each
`let ... ←` is a payload read through a `static_cast`. -/
def processBody (H : Host F) (a b : Item F) (op : Token) : Option (ProcessReturned F) :=
  if op.source = "*" ∧ a.type = "String" ∧ b.type = "Int" then do
    let s ← a.value.asString
    let x ← b.value.asInt
    some (ProcessReturned.ofItem H (H.itemOfValue (Payload.string (multiply s x)) "String"))
  else if op.source = "*" ∧ a.type = "Int" ∧ b.type = "String" then do
    let s ← b.value.asString
    let x ← a.value.asInt
    some (ProcessReturned.ofItem H (H.itemOfValue (Payload.string (multiply s x)) "String"))
  else if op.source = "+" ∧ a.type = "String" ∧ b.type = "Char" then do
    let s ← a.value.asString
    let x ← b.value.asChar
    some (ProcessReturned.ofItem H
      (H.itemOfValue (Payload.string (String.singleton x ++ s)) "String"))
  else if op.source = "+" ∧ a.type = "Char" ∧ b.type = "String" then do
    let s ← b.value.asString
    let x ← a.value.asChar
    some (ProcessReturned.ofItem H
      (H.itemOfValue (Payload.string (s ++ String.singleton x)) "String"))
  else if !contain (H.possibleOperations (H.toType a.type)) op.source then
    some (ProcessReturned.ofException H (Exception.ofType H ExceptionType.OperandTypeError))
  else if a.type = "Int" ∧ b.type = "Int" then do
    let x ← a.value.asInt
    let y ← b.value.asInt
    some (processIntInt H x y op)
  else if a.type = "Float" ∨ b.type = "Float" then do
    let x ← widen H a
    let y ← widen H b
    some (processFloatFloat H x y op)
  else if a.type = "Bool" then do
    let x ← a.value.asBool
    let y ← b.value.asBool
    if H.isComparisonOperation op.source then
      some (ProcessReturned.ofItem H
        (H.itemOfValue (Payload.bool (H.compareBool x y op.source)) "Bool"))
    else
      some (ProcessReturned.ofItem H
        (H.itemOfValue (Payload.bool (H.processBool x y op.source)) "Bool"))
  else if a.type = "String" then do
    let x ← a.value.asString
    let y ← b.value.asString
    if H.isComparisonOperation op.source then
      some (ProcessReturned.ofItem H
        (H.itemOfValue (Payload.bool (H.compareString x y op.source)) "Bool"))
    else
      some (ProcessReturned.ofItem H
        (H.itemOfValue (Payload.string (H.processString x y op.source)) "String"))
  else if a.type = "Char" then do
    let x ← a.value.asChar
    let y ← b.value.asChar
    if H.isComparisonOperation op.source then
      some (ProcessReturned.ofItem H
        (H.itemOfValue (Payload.bool (H.compareChar x y op.source)) "Bool"))
    else
      some (ProcessReturned.ofItem H
        (H.itemOfValue (Payload.char (H.processChar x y op.source)) "Char"))
  else none

/-- The function `Process` (lines 277-352): the binary operator rule. -/
def Process (H : Host F) (a b : Item F) (op : Token) : Option (ProcessReturned F) :=
  match processGate H a b op with
  | none => none
  | some true =>
    some (ProcessReturned.ofException H (Exception.ofType H ExceptionType.TypeError))
  | some false => processBody H a b op

/-- The statement `x = -x` on a `long long`: no result at the least value,
whose negation overflows. -/
def negate (x : Int) : Option Int :=
  if x = -(2 ^ 63) then none else some (-x)

/-- The function `ProcessUnary` (lines 354-380): the unary operator rule. -/
def ProcessUnary (H : Host F) (a : Item F) (op : Token) : Option (ProcessReturned F) :=
  if !contain ["Int", "Float", "Bool"] a.type then
    some (ProcessReturned.ofException H
      (Exception.ofType H ExceptionType.IncorrectOperationArguments))
  else if !contain ["$+", "$-", "!"] op.source then
    some (ProcessReturned.ofException H
      (Exception.ofType H ExceptionType.OperationArgumentExcess))
  else if a.type = "Int" then do
    let x ← a.value.asInt
    let x1 ← if op.source = "$-" then negate x else some x
    let x2 : Int := if op.source = "!" then (if x1 = 0 then 1 else 0) else x1
    some (ProcessReturned.ofItem H (H.itemOfValue (Payload.int x2) "Int"))
  else if a.type = "Float" then do
    let x ← a.value.asFloat
    let x1 : F := if op.source = "$-" then H.floatNeg x else x
    let x2 : F :=
      if op.source = "!" then H.floatOfInt (if H.floatIsZero x1 then 1 else 0) else x1
    some (ProcessReturned.ofItem H (H.itemOfValue (Payload.float x2) "Float"))
  else if a.type = "Bool" then do
    let x ← a.value.asBool
    if op.source ≠ "!" then
      some (ProcessReturned.ofException H
        (Exception.ofType H ExceptionType.IncorrectOperationArguments))
    else some (ProcessReturned.ofItem H (H.itemOfValue (Payload.bool (!x)) "Bool"))
  else none

/-! ## The evaluator -/

/-- Modelled from the spec: an `Expression`, the ordered sequence of items of
one infix expression. -/
structure Expression (F : Type) where
  content : List (Item F)

/-- Modelled from the spec: `CalculateReturned`, declared outside
`expressions.hpp`; the result wrappers are all pairs of an item and an
exception, built from an item alone or from an exception alone. -/
abbrev CalculateReturned (F : Type) : Type := ProcessReturned F

/-- The outcome of one iteration of the `for` loop of `Calculate`: the
function returns, or the loop goes on with a new stack of values. -/
inductive Step (F : Type)
  | returned (result : CalculateReturned F)
  | continued (values : List (Item F))

/-- One iteration of the `for` loop of `Calculate` (lines 398-421) on the stack
`values`. -/
def evaluateStep (H : Host F) (elem : Item F) (values : List (Item F)) : Option (Step F) :=
  if elem.type = "Operation" then
    match values with
    | [] =>
      some (Step.returned
        (ProcessReturned.ofException H (Exception.ofType H ExceptionType.RuntimeError)))
    | a :: values1 =>
      if values1.isEmpty || H.isUnaryOperator elem.token then
        match ProcessUnary H a elem.token with
        | none => none
        | some processedUnary =>
          if processedUnary.exception.type ≠ ExceptionType.Nothing then
            some (Step.returned (ProcessReturned.ofException H processedUnary.exception))
          else some (Step.continued (processedUnary.item :: values1))
      else
        match values1 with
        | [] => none -- not reached: `values1` is not empty on this branch
        | b :: values2 =>
          match Process H a b elem.token with
          | none => none
          | some processed =>
            if processed.exception.type ≠ ExceptionType.Nothing then
              some (Step.returned (ProcessReturned.ofException H processed.exception))
            else some (Step.continued (processed.item :: values2))
  else some (Step.continued (elem :: values))

/-- The end of `Calculate` (lines 423-426): exactly one value must remain. -/
def finish (H : Host F) (values : List (Item F)) : CalculateReturned F :=
  match values with
  | [top] => ProcessReturned.ofItem H top
  | _ => ProcessReturned.ofException H (Exception.ofType H ExceptionType.RuntimeError)

/-- The `for` loop of `Calculate` over the postfix sequence and the test that
follows it (lines 397-426), from the stack `values`. -/
def evaluate (H : Host F) : List (Item F) → List (Item F) → Option (CalculateReturned F)
  | [], values => some (finish H values)
  | elem :: rest, values =>
    match evaluateStep H elem values with
    | none => none
    | some (Step.returned result) => some result
    | some (Step.continued values') => evaluate H rest values'

/-- The function `Calculate` (lines 382-427). -/
def Calculate (H : Host F) (expression : Expression F) : Option (CalculateReturned F) :=
  match intoPostfixNotation H expression.content with
  | none => none
  | some postfixNotation => evaluate H postfixNotation []

/-! ## The vocabulary of the specification -/

/-- A value item: the converter takes it for neither an operator nor a
bracket, and the evaluator does not take it for an operator. -/
structure IsValue (H : Host F) (v : Item F) : Prop where
  notOperator : H.isOperator v.token = false
  notLeft : v.token.source ≠ "("
  notRight : v.token.source ≠ ")"
  notOperation : v.type ≠ "Operation"

/-- An operator item, as `parseExpression` builds it (line 600): the item of
an operator token that is no bracket, tagged `Operation`. -/
structure IsOperatorItem (H : Host F) (o : Item F) : Prop where
  operator : H.isOperator o.token = true
  notLeft : o.token.source ≠ "("
  notRight : o.token.source ≠ ")"
  built : H.itemOfToken o.token = o
  operation : o.type = "Operation"

/-- The item is an `Int` holding `n`. -/
def IsInt (i : Item F) (n : Int) : Prop :=
  i.type = "Int" ∧ i.value = Payload.int n

/-- The item is a `Float` holding `x`. -/
def IsFloat (i : Item F) (x : F) : Prop :=
  i.type = "Float" ∧ i.value = Payload.float x

/-- The item is a `Bool` holding `b`. -/
def IsBool (i : Item F) (b : Bool) : Prop :=
  i.type = "Bool" ∧ i.value = Payload.bool b

/-- The item is a `String` holding `s`. -/
def IsString (i : Item F) (s : String) : Prop :=
  i.type = "String" ∧ i.value = Payload.string s

/-- The item is a `Char` holding `c`. -/
def IsChar (i : Item F) (c : Char) : Prop :=
  i.type = "Char" ∧ i.value = Payload.char c

/-- The item is a left parenthesis. -/
def isLeft (i : Item F) : Bool :=
  decide (i.token.source = "(")

/-- The item is a right parenthesis. -/
def isRight (i : Item F) : Bool :=
  decide (i.token.source = ")")

/-- The item is a parenthesis. -/
def isBracket (i : Item F) : Bool :=
  isLeft i || isRight i

/-- The parentheses of the input are balanced: every prefix has at least as
many `(` as `)`, and the totals are equal. -/
def Balanced (input : List (Item F)) : Prop :=
  (∀ p ∈ input.inits, p.countP isRight ≤ p.countP isLeft) ∧
    input.countP isLeft = input.countP isRight

/-- The parentheses of the rest of the input are balanced once `d` of them are
open. -/
def BalancedFrom (d : Nat) (input : List (Item F)) : Prop :=
  (∀ n, (input.take n).countP isRight ≤ d + (input.take n).countP isLeft) ∧
    d + input.countP isLeft = input.countP isRight

/-- The number of left parentheses on the operator stack. -/
def openBrackets (operations : List Token) : Nat :=
  operations.countP (fun t => decide (t.source = "("))

/-- The tokens of the operator stack that are no left parenthesis. -/
def pending (operations : List Token) : List Token :=
  operations.filter (fun t => decide (t.source ≠ "("))

/-- The result was built by one of the two constructors of `ProcessReturned`:
from an item, or from an exception that is not `Nothing`. -/
def Constructed (H : Host F) (p : ProcessReturned F) : Prop :=
  p = ProcessReturned.ofItem H p.item ∨
    (p.exception.type ≠ ExceptionType.Nothing ∧ p = ProcessReturned.ofException H p.exception)

/-! ## A sample host

One instantiation of the included headers, on which the definitions above are
evaluated: the long doubles are the rationals, the operators are those of the
list below, `**` binds tighter than `*` and `/`, which bind tighter than the
rest. -/

/-- The operator sources of the sample host. -/
def sampleOperators : List String :=
  ["+", "-", "*", "/", "**", "%", "==", "!=", "<", ">", "!", "$+", "$-"]

/-- The priorities of the sample host. -/
def samplePriority (source : String) : Int :=
  if source = "**" then 3 else if source = "*" ∨ source = "/" ∨ source = "%" then 2 else 1

/-- The type enumerators of the sample host. -/
def sampleToType (type : String) : Nat :=
  if type = "Int" then 0 else if type = "Float" then 1 else if type = "Bool" then 2
  else if type = "String" then 3 else if type = "Char" then 4
  else if type = "Operation" then 5 else 6

/-- The inverse of `sampleToType`. -/
def sampleToString (type : Nat) : String :=
  match type with
  | 0 => "Int"
  | 1 => "Float"
  | 2 => "Bool"
  | 3 => "String"
  | 4 => "Char"
  | 5 => "Operation"
  | _ => "None"

/-- The operators each type allows in the sample host. -/
def samplePossibleOperations (type : Nat) : List String :=
  match type with
  | 0 => ["+", "-", "*", "/", "**", "%", "==", "!=", "<", ">"]
  | 1 => ["+", "-", "*", "/", "==", "!=", "<", ">"]
  | 2 => ["==", "!="]
  | 3 => ["+", "==", "!="]
  | 4 => ["==", "!="]
  | _ => []

/-- The sample host. -/
def sampleHost : Host ℚ where
  isOperator t := contain sampleOperators t.source
  isUnaryOperator t := contain ["!", "$+", "$-"] t.source
  getPriority t := samplePriority t.source
  itemOfToken t :=
    { token := t, type := if contain sampleOperators t.source then "Operation" else "None",
      value := Payload.other, source := t.source }
  itemOfString s :=
    { token := { source := s, type := TokenType.Other }, type := "None",
      value := Payload.other, source := s }
  itemOfValue v type :=
    { token := { source := "", type := TokenType.Other }, type := type, value := v,
      source := "" }
  defaultLine := -1
  toType := sampleToType
  toString := sampleToString
  IntType := 0
  FloatType := 1
  OperationType := 5
  possibleOperations := samplePossibleOperations
  isComparisonOperation op := contain ["==", "!=", "<", ">"] op
  compareInt x y op := if op = "==" then x == y else if op = "<" then x < y else x != y
  compareFloat x y op := if op = "==" then x == y else if op = "<" then x < y else x != y
  compareBool x y op := if op = "==" then x == y else x != y
  compareString x y op := if op = "==" then x == y else x != y
  compareChar x y op := if op = "==" then x == y else x != y
  processInt x y op :=
    if op = "+" then x + y else if op = "-" then x - y else if op = "*" then x * y
    else if op = "/" then x / y else x % y
  processFloat x y op :=
    if op = "+" then x + y else if op = "-" then x - y else if op = "*" then x * y
    else x / y
  processBool x y _ := x && y
  processString x y _ := x ++ y
  processChar x _ _ := x
  floatOfInt n := n
  floatIsZero x := x == 0
  floatNeg x := -x

/-- A token of the sample host with the given source. -/
def sampleToken (source : String) : Token :=
  { source := source, type := TokenType.Other }

/-- An operator item of the sample host, built from its token. -/
def sampleOp (source : String) : Item ℚ :=
  sampleHost.itemOfToken (sampleToken source)

/-- A bracket item of the sample host, built from its token. -/
def sampleBracket (source : String) : Item ℚ :=
  sampleHost.itemOfToken (sampleToken source)

/-- An `Int` item of the sample host. -/
def sampleInt (n : Int) : Item ℚ :=
  sampleHost.itemOfValue (Payload.int n) "Int"

/-- A `Float` item of the sample host. -/
def sampleFloat (x : ℚ) : Item ℚ :=
  sampleHost.itemOfValue (Payload.float x) "Float"

/-- A `Bool` item of the sample host. -/
def sampleBool (b : Bool) : Item ℚ :=
  sampleHost.itemOfValue (Payload.bool b) "Bool"

/-- A `String` item of the sample host. -/
def sampleString (s : String) : Item ℚ :=
  sampleHost.itemOfValue (Payload.string s) "String"

/-- A `Char` item of the sample host. -/
def sampleChar (c : Char) : Item ℚ :=
  sampleHost.itemOfValue (Payload.char c) "Char"

/-! ## Variables and scopes -/

/-- The struct `VariableObject` (lines 10-37); the private `set<string> type`
is a list without repetition. -/
structure VariableObject (F : Type) where
  type : List String
  isMutable : Bool
  name : String
  item : Item F
deriving DecidableEq, Repr

/-- A default-constructed `VariableObject` (lines 12-17): the type set is
`{"Any"}`, the object is mutable and unnamed.  Its `item`, `Item(emptyToken)`
in the source, is a parameter. -/
def VariableObject.fresh (item : Item F) : VariableObject F :=
  { type := ["Any"], isMutable := true, name := "", item := item }

/-- The method `insert` of `set<string>`: nothing changes when the element is
there already. -/
def insertType (t : String) (type : List String) : List String :=
  if t ∈ type then type else type ++ [t]

/-- The method `VariableObject::isAnyType` (lines 19-21). -/
def VariableObject.isAnyType (v : VariableObject F) : Bool :=
  decide ("Any" ∈ v.type)

/-- The method `VariableObject::addType` (lines 23-28): the set is cleared
when it holds `Any`, then `t` is inserted. -/
def VariableObject.addType (v : VariableObject F) (t : String) : VariableObject F :=
  { v with type := insertType t (if "Any" ∈ v.type then [] else v.type) }

/-- The method `VariableObject::getType` (lines 30-32). -/
def VariableObject.getType (v : VariableObject F) : List String :=
  v.type

/-- The method `VariableObject::containType` (lines 34-36). -/
def VariableObject.containType (v : VariableObject F) (t : String) : Bool :=
  decide (t ∈ v.type)

/-- One scope, a `map<string, VariableObject>`: a list of bindings, at most
one for a name. -/
abbrev Scope (F : Type) : Type := List (String × VariableObject F)

/-- The method `find` of a scope: the variable bound to `name`, when there is
one. -/
def Scope.lookup (scope : Scope F) (name : String) : Option (VariableObject F) :=
  match scope with
  | [] => none
  | (key, v) :: rest => if key = name then some v else Scope.lookup rest name

/-- The assignment `scope[name] = v`: the binding of `name` is replaced, or
added when there is none. -/
def Scope.assign (scope : Scope F) (name : String) (v : VariableObject F) : Scope F :=
  match scope with
  | [] => [(name, v)]
  | (key, w) :: rest =>
    if key = name then (key, v) :: rest else (key, w) :: Scope.assign rest name v

/-- The struct `ScopeManager` (lines 114-167): the vector `m` of scopes, the
innermost scope last. -/
structure ScopeManager (F : Type) where
  m : List (Scope F)
deriving DecidableEq, Repr

/-- The method `ScopeManager::addScope` (lines 118-120). -/
def ScopeManager.addScope (sm : ScopeManager F) : ScopeManager F :=
  { m := sm.m ++ [[]] }

/-- The method `ScopeManager::add` (lines 122-128): the exception returned and
the manager afterwards; no result when there is no scope, where `m.back()` is
undefined. -/
def ScopeManager.add (H : Host F) (sm : ScopeManager F) (v : VariableObject F) :
    Option (Exception × ScopeManager F) :=
  match sm.m.getLast? with
  | none => none
  | some back =>
    if (Scope.lookup back v.name).isSome then
      some (Exception.ofType H ExceptionType.RedefinitionError, sm)
    else
      some (Exception.ofType H ExceptionType.Nothing,
        { m := sm.m.dropLast ++ [Scope.assign back v.name v] })

/-- The loop of `ScopeManager::get` (lines 131-135) over the scopes from the
innermost outwards. -/
def searchScopes (name : String) : List (Scope F) → Option (VariableObject F)
  | [] => none
  | scope :: outer =>
    match Scope.lookup scope name with
    | some v => some v
    | none => searchScopes name outer

/-- The method `ScopeManager::get` (lines 130-137): no result where the loop ends
and `assert(false)` is reached. -/
def ScopeManager.get (sm : ScopeManager F) (name : String) : Option (VariableObject F) :=
  searchScopes name sm.m.reverse

/-- The loop of `ScopeManager::setItem` (lines 140-145) over the scopes from
the innermost outwards. -/
def setItemScopes (name : String) (item : Item F) : List (Scope F) → Option (List (Scope F))
  | [] => none
  | scope :: outer =>
    match Scope.lookup scope name with
    | some v => some (Scope.assign scope name { v with item := item } :: outer)
    | none =>
      match setItemScopes name item outer with
      | none => none
      | some outer' => some (scope :: outer')

/-- The method `ScopeManager::setItem` (lines 139-147): no result where
`assert(false)` is reached. -/
def ScopeManager.setItem (sm : ScopeManager F) (name : String) (item : Item F) :
    Option (ScopeManager F) :=
  match setItemScopes name item sm.m.reverse with
  | none => none
  | some scopes => some { m := scopes.reverse }

/-- The loop of `ScopeManager::find` (lines 156-160) over the scopes from the
innermost outwards. -/
def findScopes (name : String) : List (Scope F) → Bool
  | [] => false
  | scope :: outer => if (Scope.lookup scope name).isSome then true else findScopes name outer

/-- The method `ScopeManager::find` (lines 155-162). -/
def ScopeManager.find (sm : ScopeManager F) (name : String) : Bool :=
  findScopes name sm.m.reverse

/-- The method `ScopeManager::deleteLastScope` (lines 164-166): no result when
there is no scope, where `pop_back` is undefined. -/
def ScopeManager.deleteLastScope (sm : ScopeManager F) : Option (ScopeManager F) :=
  match sm.m with
  | [] => none
  | _ :: _ => some { m := sm.m.dropLast }

/-! ## The function invoker -/

/-- Modelled from the spec: one parameter of a `Function`, a name and a
declared type. -/
structure FunctionArgument where
  name : String
  type : String
deriving DecidableEq, Repr

/-- Modelled from the spec: a `Function` of `Object.hpp`, with the members
`runWithArgs` reads: the parameters, the body, the start line and the set of
declared return types. -/
structure Function where
  args : List FunctionArgument
  representation : List Token
  startIndex : Int
  type : List String
deriving DecidableEq, Repr

/-- Modelled from the spec: the method `Function::containType`, membership in
the declared return types. -/
def Function.containType (function : Function) (t : String) : Bool :=
  decide (t ∈ function.type)

/-- Modelled from the spec: the method `Function::isAnyType`, the function
accepts `Any`. -/
def Function.isAnyType (function : Function) : Bool :=
  decide ("Any" ∈ function.type)

/-- The struct `ExecuteReturned` (lines 39-48). -/
structure ExecuteReturned (F : Type) where
  exception : Exception
  item : Item F
deriving DecidableEq, Repr

/-- The struct `FunctionReturned` (lines 55-65). -/
structure FunctionReturned (F : Type) where
  item : Item F
  exception : Exception
  isVoid : Bool
deriving DecidableEq, Repr

/-- The constructor `FunctionReturned(Item i)`. -/
def FunctionReturned.ofItem (H : Host F) (i : Item F) : FunctionReturned F :=
  { item := i, exception := Exception.ofType H ExceptionType.Nothing, isVoid := false }

/-- The constructor `FunctionReturned(Exception e)`: the item is `Item("")`. -/
def FunctionReturned.ofException (H : Host F) (e : Exception) : FunctionReturned F :=
  { item := H.itemOfString "", exception := e, isVoid := false }

/-- The statement executor `execute(vector<Token>, vector<VariableObject>)`
(line 52), declared in `expressions.hpp` and defined outside it. -/
abbrev Executor (F : Type) : Type := List Token → List (VariableObject F) → ExecuteReturned F

/-- The first loop of `runWithArgs` (lines 80-85), run once the two sizes are
equal: every argument has the declared type of its parameter, or that type is
`Any`. -/
def argumentsMatch : List FunctionArgument → List (Item F) → Bool
  | arg :: args, item :: init =>
    if arg.type = item.type ∨ arg.type = "Any" then argumentsMatch args init else false
  | _, _ => true

/-- The body of the second loop of `runWithArgs` (lines 90-93): a default
`VariableObject` receives the argument, the declared type and the name.  The
assignment `v.item = init[i]` overwrites the default item, which is therefore
the argument from the start. -/
def bindArgument (arg : FunctionArgument) (item : Item F) : VariableObject F :=
  { (VariableObject.fresh item).addType arg.type with name := arg.name }

/-- The second loop of `runWithArgs` (lines 89-95). -/
def bindArguments : List FunctionArgument → List (Item F) → List (VariableObject F)
  | arg :: args, item :: init => bindArgument arg item :: bindArguments args init
  | _, _ => []

/-- The end of `runWithArgs` (lines 99-111): what the invoker makes of the
result of the executor. -/
def interpretResult (H : Host F) (function : Function) (result : ExecuteReturned F) :
    FunctionReturned F :=
  if result.exception.type = ExceptionType.RETURN then
    if !function.containType result.item.type && !function.isAnyType then
      FunctionReturned.ofException H (Exception.ofType H ExceptionType.TypeError)
    else FunctionReturned.ofItem H result.item
  else if result.exception.type ≠ ExceptionType.Nothing then
    FunctionReturned.ofException H
      { type := result.exception.type, line := result.exception.line + function.startIndex }
  else if !function.containType "Unit" && !function.isAnyType then
    FunctionReturned.ofException H (Exception.ofType H ExceptionType.EndOfFunction)
  else FunctionReturned.ofException H (Exception.ofType H ExceptionType.Nothing)

/-- The function `runWithArgs` (lines 71-112), with the statement executor as
a parameter. -/
def runWithArgs (H : Host F) (execute : Executor F) (function : Function)
    (init : List (Item F)) : FunctionReturned F :=
  if init.length < function.args.length then
    FunctionReturned.ofException H
      { type := ExceptionType.FunctionArgumentLack, line := function.startIndex }
  else if init.length > function.args.length then
    FunctionReturned.ofException H
      { type := ExceptionType.FunctionArgumentExcess, line := function.startIndex }
  else if !argumentsMatch function.args init then
    FunctionReturned.ofException H (Exception.ofType H ExceptionType.TypeError)
  else
    interpretResult H function (execute function.representation (bindArguments function.args init))

/-! ## The name resolver -/

/-- The enumeration `nameType` (lines 222-227). -/
inductive nameType
  | DeclaredVariable
  | DeclaredFunction
  | DeclaredClass
  | Undeclared
deriving DecidableEq, Repr

/-- Modelled from the spec: the registries `BuiltInFunctions`, `Classes` and
`BuiltInClasses`, which `expressions.hpp` queries by membership only. -/
structure Registries where
  BuiltInFunctions : List String
  Classes : List String
  BuiltInClasses : List String
deriving DecidableEq, Repr

/-- The function `nameDeclaration` (lines 229-244), on the registries and the
global `scopeManager`. -/
def nameDeclaration (R : Registries) (scopeManager : ScopeManager F) (name : String) :
    Option nameType :=
  if name ∈ R.BuiltInFunctions then some nameType.DeclaredFunction
  else if scopeManager.find name then
    match scopeManager.get name with
    | none => none
    | some obj =>
      if obj.containType "Function" || decide (obj.item.type = "Function") then
        some nameType.DeclaredFunction
      else some nameType.DeclaredVariable
  else if name ∈ R.Classes ∨ name ∈ R.BuiltInClasses then some nameType.DeclaredClass
  else some nameType.Undeclared

/-! ## The expression parser -/

/-- The global state `parseExpression` and its sub-parsers work on: the scope
manager and the registries. -/
structure World (F : Type) where
  scopeManager : ScopeManager F
  registries : Registries

/-- The struct `VariableAssignmentReturned` (lines 430-439). -/
structure VariableAssignmentReturned (F : Type) where
  item : Item F
  exception : Exception

/-- The struct `FunctionDeclarationParsed` (lines 443-452). -/
structure FunctionDeclarationParsed where
  function : Function
  exception : Exception

/-- The struct `TernaryReturned` (lines 456-465). -/
structure TernaryReturned (F : Type) where
  item : Item F
  exception : Exception

/-- Modelled from the spec: the struct `ConstructorReturned`, an item and an
exception as the other result wrappers. -/
structure ConstructorReturned (F : Type) where
  item : Item F
  exception : Exception

/-- Modelled from the spec: the struct `ParseExpressionReturned`, the
expression and the exception of one parse. -/
structure ParseExpressionReturned (F : Type) where
  expression : Expression F
  exception : Exception

/-- Modelled from the spec: the constructor `ParseExpressionReturned(Exception)`,
with an empty expression. -/
def ParseExpressionReturned.ofException (e : Exception) : ParseExpressionReturned F :=
  { expression := { content := [] }, exception := e }

/-- Modelled from the spec: the constructor `ParseExpressionReturned(Expression)`,
with the exception `Nothing`. -/
def ParseExpressionReturned.ofExpression (H : Host F) (content : List (Item F)) :
    ParseExpressionReturned F :=
  { expression := { content := content }, exception := Exception.ofType H ExceptionType.Nothing }

/-- What `parseExpression` takes from outside `expressions.hpp`, besides the
`Host`: the token predicates, the cursor helpers and the sub-parsers, which
receive the cursor and the global state and return them changed. -/
structure Parsers (F : Type) where
  /-- The method `Token::isObject()`. -/
  isObject : Token → Bool
  /-- The method `Token::isRightBracket()`. -/
  isRightBracket : Token → Bool
  /-- The method `Token::isLeftBracket()`. -/
  isLeftBracket : Token → Bool
  /-- The method `Token::isBracket()`. -/
  isBracket : Token → Bool
  /-- The method `Token::isKeyword()`. -/
  isKeyword : Token → Bool
  /-- The function `isBracketPair(Token, Token)`. -/
  isBracketPair : Token → Token → Bool
  /-- The function `prev(input, index)`. -/
  prev : List Token → Int → Token
  /-- The function `next(input, index)`. -/
  next : List Token → Int → Token
  /-- The function `nextIndex(input, index)`. -/
  nextIndex : List Token → Int → Int
  /-- The function `getLineIndex(input, index)`. -/
  getLineIndex : List Token → Int → Int
  /-- The item `Item(new Function(f), "Function")` of a lambda. -/
  itemOfFunction : Function → Item F
  /-- The sub-parser `parseFunctionCall(input, index)`. -/
  parseFunctionCall : List Token → Int → World F → FunctionReturned F × Int × World F
  /-- The sub-parser `parseConstructorCall(input, index)`. -/
  parseConstructorCall : List Token → Int → World F → ConstructorReturned F × Int × World F
  /-- The sub-parser `parseTernary(input, index)`. -/
  parseTernary : List Token → Int → World F → TernaryReturned F × Int × World F
  /-- The sub-parser `parseFunctionDeclaration(input, index)`. -/
  parseFunctionDeclaration : List Token → Int → World F → FunctionDeclarationParsed × Int × World F
  /-- The sub-parser `parseVariableAssignment(input, index)`. -/
  parseVariableAssignment :
    List Token → Int → World F → VariableAssignmentReturned F × Int × World F

/-- The element `input[index]` of the token vector: no result outside the
vector. -/
def tokenAt (input : List Token) (index : Int) : Option Token :=
  if index < 0 then none else input[index.toNat]?

/-- The variables of one call of `parseExpression` that its loop changes: the
cursor `index`, the content of `ret`, the bracket stack and the global state. -/
structure ParseState (F : Type) where
  index : Int
  content : List (Item F)
  bracketStack : List Token
  world : World F

/-- The outcome of one iteration of the loop of `parseExpression`: a `return`,
a `break`, or the next iteration. -/
inductive ParseStep (F : Type)
  | returned (result : ParseExpressionReturned F) (state : ParseState F)
  | exited (state : ParseState F)
  | continued (state : ParseState F)

/-- The bracket stack after lines 499-509. -/
def pushBracket (P : Parsers F) (token : Token) (bracketStack : List Token) : List Token :=
  if P.isBracket token then
    match bracketStack with
    | [] => [token]
    | top :: rest => if P.isBracketPair top token then rest else token :: top :: rest
  else bracketStack

/-- The call branch of `parseExpression` (lines 512-530), entered when the
token is an object followed by `(`; `nameDeclaration` is called for a `Name`
only. -/
def parseCall (P : Parsers F) (input : List Token) (token : Token) (st : ParseState F) :
    Option (ParseStep F) :=
  let callError : ParseStep F :=
    ParseStep.returned
      (ParseExpressionReturned.ofException
        { type := ExceptionType.CallError, line := P.getLineIndex input st.index }) st
  if token.type = TokenType.Name then
    match nameDeclaration st.world.registries st.world.scopeManager token.source with
    | none => none
    | some declaration =>
      if declaration = nameType.DeclaredFunction then
        match P.parseFunctionCall input st.index st.world with
        | (functionReturned, index, world) =>
          if functionReturned.exception.type ≠ ExceptionType.Nothing then
            some (ParseStep.returned
              (ParseExpressionReturned.ofException functionReturned.exception)
              { st with index := index, world := world })
          else
            some (ParseStep.continued
              { st with index := index, world := world,
                        content := st.content ++ [functionReturned.item] })
      else if declaration = nameType.DeclaredClass then
        match P.parseConstructorCall input st.index st.world with
        | (constructorReturned, index, world) =>
          if constructorReturned.exception.type ≠ ExceptionType.Nothing then
            some (ParseStep.returned
              (ParseExpressionReturned.ofException constructorReturned.exception)
              { st with index := index, world := world })
          else
            some (ParseStep.continued
              { st with index := index, world := world,
                        content := st.content ++ [constructorReturned.item] })
      else some callError
  else some callError

/-- The name branch of `parseExpression` (lines 569-594), entered when the
token is a `Name`: a `return`, a `continue`, or `none` of the two when the
name is followed by `.`, and control goes on to line 597. -/
def parseName (P : Parsers F) (input : List Token) (token nextToken : Token)
    (st : ParseState F) : Option (Option (ParseStep F)) :=
  match nameDeclaration st.world.registries st.world.scopeManager token.source with
  | none => none
  | some declaration =>
    if declaration = nameType.Undeclared then
      some (some (ParseStep.returned
        (ParseExpressionReturned.ofException
          { type := ExceptionType.UndefinedNameUsage, line := P.getLineIndex input st.index })
        st))
    else if nextToken.source ≠ "." then
      if nextToken.source = "=" then
        match P.parseVariableAssignment input st.index st.world with
        | (result, index, world) =>
          if result.exception.type ≠ ExceptionType.Nothing then
            some (some (ParseStep.returned
              (ParseExpressionReturned.ofException
                { type := result.exception.type, line := P.getLineIndex input index })
              { st with index := index, world := world }))
          else
            some (some (ParseStep.continued
              { st with index := index, world := world,
                        content := st.content ++ [result.item] }))
      else
        match st.world.scopeManager.get token.source with
        | none => none
        | some v =>
          some (some (ParseStep.continued
            { st with content := st.content ++ [v.item],
                      index := P.nextIndex input st.index }))
    else some none

/-- Lines 597-601 of `parseExpression`: a keyword other than `this` is a
`SyntaxError`, any other token joins the expression and the cursor moves on. -/
def parseToken (H : Host F) (P : Parsers F) (input : List Token) (token : Token)
    (st : ParseState F) : ParseStep F :=
  if token.type = TokenType.Keyword ∧ !contain ["this"] token.source then
    ParseStep.returned
      (ParseExpressionReturned.ofException
        { type := ExceptionType.SyntaxError, line := P.getLineIndex input st.index }) st
  else
    ParseStep.continued
      { st with content := st.content ++ [H.itemOfToken token],
                index := P.nextIndex input st.index }

/-- Lines 511-601 of `parseExpression`: the dispatch on the token, on the state
`st` whose bracket stack is already updated; `following` is `input[index + 1]`,
which the source reads only when the token is an object. -/
def parseDispatch (H : Host F) (P : Parsers F) (input : List Token) (token nextToken : Token)
    (st : ParseState F) : Option (ParseStep F) :=
  match (if P.isObject token then tokenAt input (st.index + 1) else some token) with
  | none => none
  | some following =>
    if P.isObject token ∧ following.source = "(" then parseCall P input token st
    else if P.isObject token ∧ nextToken.source = "[" then some (ParseStep.continued st)
    else if token.source = "[" then some (ParseStep.continued st)
    else if token.source = "if" then
      match P.parseTernary input st.index st.world with
      | (result, index, world) =>
        if result.exception.type ≠ ExceptionType.Nothing then
          some (ParseStep.returned (ParseExpressionReturned.ofException result.exception)
            { st with index := index, world := world })
        else
          some (ParseStep.continued
            { st with index := index, world := world,
                      content := st.content ++ [result.item] })
    else if token.source = "lambda" then
      match P.parseFunctionDeclaration input st.index st.world with
      | (result, index, world) =>
        if result.exception.type ≠ ExceptionType.Nothing then
          some (ParseStep.returned (ParseExpressionReturned.ofException result.exception)
            { st with index := index, world := world })
        else
          some (ParseStep.continued
            { st with index := index, world := world,
                      content := st.content ++ [P.itemOfFunction result.function] })
    else if P.isObject token ∧ following.source = "." then some (ParseStep.continued st)
    else if token.type = TokenType.Name then
      match parseName P input token nextToken st with
      | none => none
      | some (some step) => some step
      | some none => some (parseToken H P input token st)
    else some (parseToken H P input token st)

/-- One iteration of the loop of `parseExpression` (lines 477-601). -/
def parseStep (H : Host F) (P : Parsers F) (input : List Token) (firstIndex : Int)
    (st : ParseState F) : Option (ParseStep F) :=
  match tokenAt input st.index with
  | none => none
  | some token =>
    let prevToken := P.prev input st.index
    let nextToken := P.next input st.index
    if (token.type = TokenType.EOE ∨ (P.isRightBracket token ∧ st.bracketStack.isEmpty) ∨
        token.source = ",") ∧ st.index ≠ firstIndex then
      some (ParseStep.exited st)
    else if st.index ≠ 0 ∧
        (P.isObject prevToken ∨ P.isRightBracket prevToken ∨ P.isKeyword prevToken) ∧
        (P.isObject token ∨ P.isLeftBracket token ∨ P.isKeyword token ∨
          H.isUnaryOperator token) ∧ st.index ≠ firstIndex then
      match tokenAt input (st.index - 1) with
      | none => none
      | some before =>
        if before.type = TokenType.EOL ∨ before.type = TokenType.EOE ∨
            token.source = "else" then
          some (ParseStep.exited st)
        else
          some (ParseStep.returned
            (ParseExpressionReturned.ofException
              { type := ExceptionType.SyntaxError, line := P.getLineIndex input st.index }) st)
    else
      parseDispatch H P input token nextToken
        { st with bracketStack := pushBracket P token st.bracketStack }

/-- The result of a computation that runs on fuel: its value, no defined
result, or the fuel ran out before it ended. -/
inductive Run (α : Type)
  | done (a : α)
  | undefined
  | outOfFuel

/-- The loop of `parseExpression` and the `return ret` after it (lines
476-607), for at most `fuel` iterations. -/
def parseLoop (H : Host F) (P : Parsers F) (input : List Token) (firstIndex last : Int) :
    Nat → ParseState F → Run (ParseExpressionReturned F × ParseState F)
  | 0, st =>
    if st.index < last then Run.outOfFuel
    else Run.done (ParseExpressionReturned.ofExpression H st.content, st)
  | fuel + 1, st =>
    if st.index < last then
      match parseStep H P input firstIndex st with
      | none => Run.undefined
      | some (ParseStep.returned result st') => Run.done (result, st')
      | some (ParseStep.exited st') =>
        Run.done (ParseExpressionReturned.ofExpression H st'.content, st')
      | some (ParseStep.continued st') => parseLoop H P input firstIndex last fuel st'
    else Run.done (ParseExpressionReturned.ofExpression H st.content, st)

/-- The function `parseExpression` (lines 470-608), for at most `fuel`
iterations of its loop: the result, with the cursor and the global state
afterwards. -/
def parseExpression (H : Host F) (P : Parsers F) (input : List Token) (index : Int)
    (world : World F) (fuel : Nat) : Run (ParseExpressionReturned F × ParseState F) :=
  match tokenAt input index with
  | none => Run.undefined
  | some _ =>
    parseLoop H P input index ((input.length : Int) - 1) fuel
      { index := index, content := [], bracketStack := [], world := world }

/-! ## A sample of the parser's collaborators -/

/-- The sub-parsers of the sample consume one token and yield this item. -/
def sampleParsed : Item ℚ :=
  sampleHost.itemOfValue (Payload.int 0) "Int"

/-- The collaborators of `parseExpression` in the sample: names are the
objects, the cursor helpers move by one token, every sub-parser consumes one
token. -/
def sampleParsers : Parsers ℚ where
  isObject t := decide (t.type = TokenType.Name)
  isRightBracket t := contain [")", "]"] t.source
  isLeftBracket t := contain ["(", "["] t.source
  isBracket t := contain ["(", "[", ")", "]"] t.source
  isKeyword t := decide (t.type = TokenType.Keyword)
  isBracketPair a b :=
    decide ((a.source = "(" ∧ b.source = ")") ∨ (a.source = "[" ∧ b.source = "]"))
  prev input index := (tokenAt input (index - 1)).getD (sampleToken "")
  next input index := (tokenAt input (index + 1)).getD (sampleToken "")
  nextIndex _ index := index + 1
  getLineIndex _ index := index
  itemOfFunction _ := sampleHost.itemOfValue Payload.other "Function"
  parseFunctionCall _ index world :=
    (FunctionReturned.ofItem sampleHost sampleParsed, index + 1, world)
  parseConstructorCall _ index world :=
    ({ item := sampleParsed, exception := Exception.ofType sampleHost ExceptionType.Nothing },
      index + 1, world)
  parseTernary _ index world :=
    ({ item := sampleParsed, exception := Exception.ofType sampleHost ExceptionType.Nothing },
      index + 1, world)
  parseFunctionDeclaration _ index world :=
    ({ function := { args := [], representation := [], startIndex := 0, type := ["Any"] },
       exception := Exception.ofType sampleHost ExceptionType.Nothing }, index + 1, world)
  parseVariableAssignment _ index world :=
    ({ item := sampleParsed, exception := Exception.ofType sampleHost ExceptionType.Nothing },
      index + 1, world)

/-- A name token of the sample. -/
def sampleName (source : String) : Token :=
  { source := source, type := TokenType.Name }

/-- The end-of-expression token of the sample. -/
def sampleEnd : Token :=
  { source := ";", type := TokenType.EOE }

/-- A variable of the sample: it is named `name`, holds `item` and has the one
declared type `type`. -/
def sampleVariable (name : String) (type : String) (item : Item ℚ) : VariableObject ℚ :=
  { type := [type], isMutable := true, name := name, item := item }

/-- The registries of the sample: `print` is the one built-in function and
`Object` the one built-in class. -/
def sampleRegistries : Registries :=
  { BuiltInFunctions := ["print"], Classes := [], BuiltInClasses := ["Object"] }

/-- The global state of the sample: one scope, binding `x` to the `Int` 1. -/
def sampleWorld : World ℚ :=
  { scopeManager := { m := [[("x", sampleVariable "x" "Int" (sampleInt 1))]] },
    registries := sampleRegistries }

/-- A function of the sample: two `Int` parameters, the return type `Int`,
starting at line 10. -/
def sampleFunction : Function :=
  { args := [{ name := "a", type := "Int" }, { name := "b", type := "Int" }],
    representation := [sampleName "a"], startIndex := 10, type := ["Int"] }

/-- An executor of the sample: it returns its first binding's item with the
signal `RETURN`. -/
def sampleExecutor : Executor ℚ :=
  fun _ bindings =>
    match bindings with
    | [] => { exception := Exception.ofType sampleHost ExceptionType.Nothing,
              item := sampleHost.itemOfString "" }
    | v :: _ => { exception := Exception.ofType sampleHost ExceptionType.RETURN, item := v.item }

/-- The state in which `parseExpression` enters its loop at cursor 0 in the
sample: nothing parsed, no open bracket. -/
def sampleStart : ParseState ℚ :=
  { index := 0, content := [], bracketStack := [], world := sampleWorld }

/-- A global state of the sample with one empty scope. -/
def sampleEmptyWorld : World ℚ :=
  { scopeManager := { m := [[]] }, registries := sampleRegistries }

/-! ## The postfix converter: lemmas -/

theorem postfixStep_value (H : Host F) (v : Item F) (hv : IsValue H v) (ops : List Token)
    (out : List (Item F)) : postfixStep H ops out v = some (ops, out ++ [v]) := by
  simp [postfixStep, hv.notOperator, hv.notLeft, hv.notRight]

theorem postfixStep_operator (H : Host F) (o : Item F) (ho : IsOperatorItem H o)
    (ops : List Token) (out : List (Item F)) :
    postfixStep H ops out o =
      (popOperators H o.token ops out).map (fun p => (o.token :: p.1, p.2)) := by
  simp only [postfixStep, ho.operator, ho.notLeft, if_false, if_true]
  cases popOperators H o.token ops out <;> rfl

theorem isLeftAssociative_operator (H : Host F)
    (hOp : H.toType "Operation" = H.OperationType) (o : Item F) (ho : IsOperatorItem H o) :
    isLeftAssociative H o = some (decide (o.source ≠ "**")) := by
  simp [isLeftAssociative, ho.operation, hOp]

/-- The converter on `a o1 b o2 c`, by the associativity of `o2` and the two
priorities. -/
theorem postfix_two_operators (H : Host F) (hOp : H.toType "Operation" = H.OperationType)
    (a b c o1 o2 : Item F) (ha : IsValue H a) (hb : IsValue H b) (hc : IsValue H c)
    (h1 : IsOperatorItem H o1) (h2 : IsOperatorItem H o2) :
    intoPostfixNotation H [a, o1, b, o2, c] =
      if (o2.source ≠ "**" ∧ H.getPriority o1.token < H.getPriority o2.token) ∨
          (o2.source = "**" ∧ H.getPriority o1.token ≤ H.getPriority o2.token) then
        some [a, b, c, o2, o1]
      else some [a, b, o1, c, o2] := by
  by_cases hs : o2.source = "**" <;>
    by_cases hlt : H.getPriority o1.token < H.getPriority o2.token <;>
    by_cases hle : H.getPriority o1.token ≤ H.getPriority o2.token <;>
    simp [intoPostfixNotation, postfixLoop, postfixStep_value, postfixStep_operator, ha, hb, hc,
      h1, h2, popOperators, isLeftAssociative_operator H hOp _ h2, h1.notLeft, hle, hlt,
      h1.built, h2.built, hs]

theorem value_ne_operator (H : Host F) (v o : Item F) (hv : IsValue H v)
    (ho : IsOperatorItem H o) : v ≠ o := by
  intro h
  have hfalse := hv.notOperator
  rw [h, ho.operator] at hfalse
  exact Bool.noConfusion hfalse

theorem balancedFrom_of_balanced (input : List (Item F)) (h : Balanced input) :
    BalancedFrom 0 input := by
  refine ⟨fun n => ?_, by simpa using h.2⟩
  have := h.1 (input.take n) (by simpa using List.take_prefix n input)
  simpa using this

theorem BalancedFrom.nil {d : Nat} (h : BalancedFrom d ([] : List (Item F))) : d = 0 := by
  simpa using h.2

theorem BalancedFrom.left {d : Nat} {i : Item F} {rest : List (Item F)}
    (h : BalancedFrom d (i :: rest)) (hi : i.token.source = "(") :
    BalancedFrom (d + 1) rest := by
  have hl : isLeft i = true := by simp [isLeft, hi]
  have hr : isRight i = false := by simp [isRight, hi]
  refine ⟨fun n => ?_, ?_⟩
  · have := h.1 (n + 1)
    simp [List.take_succ_cons, List.countP_cons, hl, hr] at this
    omega
  · have := h.2
    simp [List.countP_cons, hl, hr] at this
    omega

theorem BalancedFrom.right {d : Nat} {i : Item F} {rest : List (Item F)}
    (h : BalancedFrom d (i :: rest)) (hi : i.token.source = ")") :
    0 < d ∧ BalancedFrom (d - 1) rest := by
  have hl : isLeft i = false := by simp [isLeft, hi]
  have hr : isRight i = true := by simp [isRight, hi]
  have h1 := h.1 1
  simp [List.countP_cons, hl, hr] at h1
  refine ⟨by omega, fun n => ?_, ?_⟩
  · have := h.1 (n + 1)
    simp [List.take_succ_cons, List.countP_cons, hl, hr] at this
    omega
  · have := h.2
    simp [List.countP_cons, hl, hr] at this
    omega

theorem BalancedFrom.other {d : Nat} {i : Item F} {rest : List (Item F)}
    (h : BalancedFrom d (i :: rest)) (hl : i.token.source ≠ "(") (hr : i.token.source ≠ ")") :
    BalancedFrom d rest := by
  have hl : isLeft i = false := by simp [isLeft, hl]
  have hr : isRight i = false := by simp [isRight, hr]
  refine ⟨fun n => ?_, ?_⟩
  · have := h.1 (n + 1)
    simpa [List.take_succ_cons, List.countP_cons, hl, hr] using this
  · have := h.2
    simpa [List.countP_cons, hl, hr] using this

theorem openBrackets_append (l₁ l₂ : List Token) :
    openBrackets (l₁ ++ l₂) = openBrackets l₁ + openBrackets l₂ := by
  simp [openBrackets]

theorem openBrackets_eq_zero (l : List Token) (h : ∀ t ∈ l, t.source ≠ "(") :
    openBrackets l = 0 := by
  simp only [openBrackets, List.countP_eq_zero]
  intro t ht
  simpa using h t ht

theorem pending_append (l₁ l₂ : List Token) :
    pending (l₁ ++ l₂) = pending l₁ ++ pending l₂ := by
  simp [pending]

theorem pending_eq_self (l : List Token) (h : ∀ t ∈ l, t.source ≠ "(") : pending l = l := by
  simp only [pending, List.filter_eq_self]
  intro t ht
  simpa using h t ht

theorem pending_of_openBrackets_eq_zero (l : List Token) (h : openBrackets l = 0) :
    pending l = l := by
  apply pending_eq_self
  intro t ht
  simp only [openBrackets, List.countP_eq_zero] at h
  simpa using h t ht

/-- The operator loop pops a run of the stack that holds no left parenthesis,
and never fails once the `assert` of `isLeftAssociative` holds. -/
theorem popOperators_spec (H : Host F) (token : Token) (left : Bool)
    (hassert : isLeftAssociative H (H.itemOfToken token) = some left)
    (operations : List Token) (output : List (Item F)) :
    ∃ popped kept, operations = popped ++ kept ∧ (∀ t ∈ popped, t.source ≠ "(") ∧
      popOperators H token operations output =
        some (kept, output ++ popped.map H.itemOfToken) := by
  induction operations generalizing output with
  | nil => exact ⟨[], [], rfl, by simp, by simp [popOperators]⟩
  | cons top operations ih =>
    by_cases htop : top.source = "("
    · exact ⟨[], top :: operations, rfl, by simp, by simp [popOperators, htop]⟩
    · by_cases h1 : (left && decide (H.getPriority top < H.getPriority token)) = true
      · exact ⟨[], top :: operations, rfl, by simp, by simp [popOperators, htop, hassert, h1]⟩
      · by_cases h2 : (!left && decide (H.getPriority top ≤ H.getPriority token)) = true
        · exact ⟨[], top :: operations, rfl, by simp,
            by simp [popOperators, htop, hassert, h1, h2]⟩
        · obtain ⟨popped, kept, hsplit, hpopped, hrun⟩ := ih (output ++ [H.itemOfToken top])
          refine ⟨top :: popped, kept, by simp [hsplit], ?_, ?_⟩
          · intro t ht
            rcases List.mem_cons.1 ht with rfl | ht
            · exact htop
            · exact hpopped t ht
          · simp [popOperators, htop, hassert, h1, h2, hrun]

/-- With a left parenthesis on the stack, the `)` loop pops the run above the
topmost one and that parenthesis, and never reaches an empty stack. -/
theorem popToLeftBracket_spec (H : Host F) (operations : List Token) (output : List (Item F))
    (hopen : 0 < openBrackets operations) :
    ∃ popped top kept, operations = popped ++ top :: kept ∧ top.source = "(" ∧
      (∀ t ∈ popped, t.source ≠ "(") ∧
      popToLeftBracket H operations output = some (kept, output ++ popped.map H.itemOfToken) := by
  induction operations generalizing output with
  | nil => simp [openBrackets] at hopen
  | cons top operations ih =>
    by_cases htop : top.source = "("
    · exact ⟨[], top, operations, rfl, htop, by simp, by simp [popToLeftBracket, htop]⟩
    · have hopen' : 0 < openBrackets operations := by
        simpa [openBrackets, List.countP_cons, htop] using hopen
      obtain ⟨popped, top', kept, hsplit, htop', hpopped, hrun⟩ :=
        ih (output ++ [H.itemOfToken top]) hopen'
      refine ⟨top :: popped, top', kept, by simp [hsplit], htop', ?_, ?_⟩
      · intro t ht
        rcases List.mem_cons.1 ht with rfl | ht
        · exact htop
        · exact hpopped t ht
      · simp [popToLeftBracket, htop, hrun]

/-- The invariant of the `for` loop of `intoPostfixNotation`: from a stack with
as many left parentheses as the rest of the input closes, the loop returns, and
its result is the output so far, the pending operators and the items of the
rest that are no parenthesis, in some order. -/
theorem postfixLoop_spec (H : Host F) (hOp : H.toType "Operation" = H.OperationType)
    (input : List (Item F)) :
    ∀ (operations : List Token) (output : List (Item F)),
      (∀ o ∈ input, H.isOperator o.token = true → IsOperatorItem H o) →
      BalancedFrom (openBrackets operations) input →
      ∃ result, postfixLoop H input operations output = some result ∧
        List.Perm result (output ++ (pending operations).map H.itemOfToken ++
          input.filter (fun i => !isBracket i)) := by
  induction input with
  | nil =>
    intro operations output _ hbal
    have hzero : openBrackets operations = 0 := hbal.nil
    refine ⟨_, rfl, ?_⟩
    simp [pending_of_openBrackets_eq_zero operations hzero]
  | cons i rest ih =>
    intro operations output hops hbal
    have hrest : ∀ o ∈ rest, H.isOperator o.token = true → IsOperatorItem H o :=
      fun o ho => hops o (List.mem_cons_of_mem _ ho)
    by_cases hleft : i.token.source = "("
    · -- a left parenthesis is pushed
      have hbal' : BalancedFrom (openBrackets (i.token :: operations)) rest := by
        have := hbal.left hleft
        simpa [openBrackets, List.countP_cons, hleft] using this
      obtain ⟨result, hrun, hperm⟩ := ih (i.token :: operations) output hrest hbal'
      refine ⟨result, by simp [postfixLoop, postfixStep, hleft, hrun], ?_⟩
      simpa [pending, isBracket, isLeft, hleft] using hperm
    · by_cases hoperator : H.isOperator i.token = true
      · -- an operator pops the operators it must yield to, then is pushed
        have hi := hops i (List.mem_cons_self _ _) hoperator
        have hassert : isLeftAssociative H (H.itemOfToken i.token) =
            some (decide (i.source ≠ "**")) := by
          simp [isLeftAssociative, hi.built, hi.operation, hOp]
        obtain ⟨popped, kept, hsplit, hpopped, hpop⟩ :=
          popOperators_spec H i.token _ hassert operations output
        have hbal' : BalancedFrom (openBrackets (i.token :: kept)) rest := by
          have := hbal.other hleft hi.notRight
          rw [hsplit, openBrackets_append, openBrackets_eq_zero popped hpopped] at this
          simpa [openBrackets, List.countP_cons, hleft] using this
        obtain ⟨result, hrun, hperm⟩ :=
          ih (i.token :: kept) (output ++ popped.map H.itemOfToken) hrest hbal'
        refine ⟨result, by simp [postfixLoop, postfixStep, hleft, hoperator, hpop, hrun], ?_⟩
        refine hperm.trans ?_
        have hkeep : (!isBracket i) = true := by
          simp [isBracket, isLeft, isRight, hleft, hi.notRight]
        rw [hsplit, pending_append, pending_eq_self popped hpopped]
        simp only [pending, List.filter_cons, hleft, hkeep, List.map_cons, List.map_append,
          hi.built, ne_eq, not_false_eq_true, decide_True, if_true, List.append_assoc,
          List.cons_append]
        refine List.Perm.append_left _ (List.Perm.append_left _ ?_)
        exact List.perm_middle.symm
      · by_cases hright : i.token.source = ")"
        · -- a right parenthesis pops down to the matching left one
          obtain ⟨hopen, hbal1⟩ := hbal.right hright
          obtain ⟨popped, top, kept, hsplit, htop, hpopped, hpop⟩ :=
            popToLeftBracket_spec H operations output hopen
          have hdepth : openBrackets operations = openBrackets kept + 1 := by
            rw [hsplit, openBrackets_append, openBrackets_eq_zero popped hpopped]
            simp [openBrackets, List.countP_cons, htop]
          have hbal' : BalancedFrom (openBrackets kept) rest := by
            rw [hdepth] at hbal1
            simpa using hbal1
          obtain ⟨result, hrun, hperm⟩ :=
            ih kept (output ++ popped.map H.itemOfToken) hrest hbal'
          refine ⟨result,
            by simp [postfixLoop, postfixStep, hleft, hoperator, hright, hpop, hrun], ?_⟩
          refine hperm.trans ?_
          have hdrop : (!isBracket i) = false := by
            simp [isBracket, isRight, hright]
          rw [hsplit, pending_append, pending_eq_self popped hpopped]
          simp [pending, List.filter_cons, htop, hdrop]
        · -- any other item goes to the output
          have hbal' : BalancedFrom (openBrackets operations) rest := hbal.other hleft hright
          obtain ⟨result, hrun, hperm⟩ := ih operations (output ++ [i]) hrest hbal'
          refine ⟨result,
            by simp [postfixLoop, postfixStep, hleft, hoperator, hright, hrun], ?_⟩
          refine hperm.trans ?_
          have hkeep : (!isBracket i) = true := by
            simp [isBracket, isLeft, isRight, hleft, hright]
          simp only [List.filter_cons, hkeep, if_true, List.append_assoc, List.cons_append,
            List.nil_append]
          refine List.Perm.append_left _ ?_
          exact List.perm_middle.symm

/-! ## The sample host: its items -/

theorem sampleHost_operation : sampleHost.toType "Operation" = sampleHost.OperationType := by
  decide

theorem sampleValue_isValue (v : Payload ℚ) (type : String) (htype : type ≠ "Operation") :
    IsValue sampleHost (sampleHost.itemOfValue v type) :=
  ⟨show contain sampleOperators "" = false by decide, show "" ≠ "(" by decide,
    show "" ≠ ")" by decide, htype⟩

theorem sampleOp_isOperatorItem (source : String) (hsource : source ∈ sampleOperators) :
    IsOperatorItem sampleHost (sampleOp source) := by
  have hcontain : contain sampleOperators source = true := by simp [contain, hsource]
  refine ⟨hcontain, ?_, ?_, rfl, ?_⟩
  · rintro (h : source = "(")
    rw [h] at hsource
    revert hsource
    decide
  · rintro (h : source = ")")
    rw [h] at hsource
    revert hsource
    decide
  · show (if contain sampleOperators source = true then "Operation" else "None") = "Operation"
    rw [if_pos hcontain]

/-! ## The postfix converter: the claims -/

/-- C1: for value items `a`, `b`, `c` and operator items `o1`, `o2` with
`getPriority(o2) > getPriority(o1)`, `intoPostfixNotation` turns
`a o1 b o2 c` into `a b c o2 o1`. -/
theorem intoPostfixNotation_priority (H : Host F)
    (hOp : H.toType "Operation" = H.OperationType)
    (a b c o1 o2 : Item F) (ha : IsValue H a) (hb : IsValue H b) (hc : IsValue H c)
    (h1 : IsOperatorItem H o1) (h2 : IsOperatorItem H o2)
    (hp : H.getPriority o2.token > H.getPriority o1.token) :
    intoPostfixNotation H [a, o1, b, o2, c] = some [a, b, c, o2, o1] := by
  rw [postfix_two_operators H hOp a b c o1 o2 ha hb hc h1 h2]
  by_cases hs : o2.source = "**"
  · rw [if_pos (Or.inr ⟨hs, le_of_lt hp⟩)]
  · rw [if_pos (Or.inl ⟨hs, hp⟩)]

/-- C1 at `2 + 3 * 4`: the postfix sequence is `2 3 4 * +`. -/
theorem intoPostfixNotation_priority_witness :
    intoPostfixNotation sampleHost
        [sampleInt 2, sampleOp "+", sampleInt 3, sampleOp "*", sampleInt 4] =
      some [sampleInt 2, sampleInt 3, sampleInt 4, sampleOp "*", sampleOp "+"] :=
  intoPostfixNotation_priority sampleHost sampleHost_operation
    (sampleInt 2) (sampleInt 3) (sampleInt 4) (sampleOp "+") (sampleOp "*")
    (sampleValue_isValue _ _ (by decide)) (sampleValue_isValue _ _ (by decide))
    (sampleValue_isValue _ _ (by decide))
    (sampleOp_isOperatorItem "+" (by decide)) (sampleOp_isOperatorItem "*" (by decide))
    (by decide)

/-- C2: for value items `a`, `b`, `c` and operator items `o1`, `o2` of equal
priority, `intoPostfixNotation` turns `a o1 b o2 c` into `a b o1 c o2` if and
only if the source of `o2` is not `**`; when it is `**` (as in `a ** b ** c`)
the result is `a b c o2 o1`. -/
theorem intoPostfixNotation_associativity (H : Host F)
    (hOp : H.toType "Operation" = H.OperationType)
    (a b c o1 o2 : Item F) (ha : IsValue H a) (hb : IsValue H b) (hc : IsValue H c)
    (h1 : IsOperatorItem H o1) (h2 : IsOperatorItem H o2)
    (hp : H.getPriority o1.token = H.getPriority o2.token) :
    (intoPostfixNotation H [a, o1, b, o2, c] = some [a, b, o1, c, o2] ↔ o2.source ≠ "**") ∧
    (o2.source = "**" → intoPostfixNotation H [a, o1, b, o2, c] = some [a, b, c, o2, o1]) := by
  rw [postfix_two_operators H hOp a b c o1 o2 ha hb hc h1 h2]
  have hco : c ≠ o1 := value_ne_operator H c o1 hc h1
  by_cases hs : o2.source = "**"
  · rw [if_pos (Or.inr ⟨hs, le_of_eq hp⟩)]
    simp [hs, hco]
  · have hcond : ¬((o2.source ≠ "**" ∧ H.getPriority o1.token < H.getPriority o2.token) ∨
        (o2.source = "**" ∧ H.getPriority o1.token ≤ H.getPriority o2.token)) := by
      rintro (⟨_, hlt⟩ | ⟨h, _⟩)
      · exact absurd hp (ne_of_lt hlt)
      · exact hs h
    rw [if_neg hcond]
    simp [hs]

/-- C2 at `2 - 3 + 4` and at `2 ** 3 ** 2`: the first groups to the left, the
second to the right. -/
theorem intoPostfixNotation_associativity_witness :
    intoPostfixNotation sampleHost
        [sampleInt 2, sampleOp "-", sampleInt 3, sampleOp "+", sampleInt 4] =
      some [sampleInt 2, sampleInt 3, sampleOp "-", sampleInt 4, sampleOp "+"] ∧
    intoPostfixNotation sampleHost
        [sampleInt 2, sampleOp "**", sampleInt 3, sampleOp "**", sampleInt 2] =
      some [sampleInt 2, sampleInt 3, sampleInt 2, sampleOp "**", sampleOp "**"] :=
  ⟨(intoPostfixNotation_associativity sampleHost sampleHost_operation
      (sampleInt 2) (sampleInt 3) (sampleInt 4) (sampleOp "-") (sampleOp "+")
      (sampleValue_isValue _ _ (by decide)) (sampleValue_isValue _ _ (by decide))
      (sampleValue_isValue _ _ (by decide))
      (sampleOp_isOperatorItem "-" (by decide)) (sampleOp_isOperatorItem "+" (by decide))
      (by decide)).1.2 (by decide),
   (intoPostfixNotation_associativity sampleHost sampleHost_operation
      (sampleInt 2) (sampleInt 3) (sampleInt 2) (sampleOp "**") (sampleOp "**")
      (sampleValue_isValue _ _ (by decide)) (sampleValue_isValue _ _ (by decide))
      (sampleValue_isValue _ _ (by decide))
      (sampleOp_isOperatorItem "**" (by decide)) (sampleOp_isOperatorItem "**" (by decide))
      (by decide)).2 (by decide)⟩

/-- C3: on an input with balanced parentheses whose operator items are built
from their tokens, `intoPostfixNotation` returns (it never takes the top of an
empty operator stack), its output holds no `(` and no `)`, and the output is a
permutation of the items of the input that are no parenthesis, so that its
length is the length of the input minus the number of parentheses. -/
theorem intoPostfixNotation_balanced (H : Host F)
    (hOp : H.toType "Operation" = H.OperationType) (input : List (Item F))
    (hops : ∀ o ∈ input, H.isOperator o.token = true → IsOperatorItem H o)
    (hbal : Balanced input) :
    ∃ result, intoPostfixNotation H input = some result ∧
      (∀ i ∈ result, i.token.source ≠ "(" ∧ i.token.source ≠ ")") ∧
      List.Perm result (input.filter (fun i => !isBracket i)) ∧
      result.length = input.length - input.countP isBracket := by
  obtain ⟨result, hrun, hperm⟩ := postfixLoop_spec H hOp input [] [] hops
    (by simpa [openBrackets] using balancedFrom_of_balanced input hbal)
  have hperm' : List.Perm result (input.filter (fun i => !isBracket i)) := by
    simpa [pending] using hperm
  refine ⟨result, hrun, ?_, hperm', ?_⟩
  · intro i hi
    have := (List.mem_filter.1 (hperm'.mem_iff.1 hi)).2
    simpa [isBracket, isLeft, isRight] using this
  · rw [hperm'.length_eq, ← List.countP_eq_length_filter]
    have hsum := List.length_eq_countP_add_countP isBracket input
    have hneg : List.countP (fun i => !isBracket i) input =
        List.countP (fun a => decide ¬isBracket a = true) input := by
      congr 1
      funext a
      cases isBracket a <;> rfl
    omega

/-- C3 at `( 2 + 3 ) * 4`: the converter returns five items, none of them a
parenthesis. -/
theorem intoPostfixNotation_balanced_witness :
    ∃ result, intoPostfixNotation sampleHost
        [sampleBracket "(", sampleInt 2, sampleOp "+", sampleInt 3, sampleBracket ")",
          sampleOp "*", sampleInt 4] = some result ∧
      (∀ i ∈ result, i.token.source ≠ "(" ∧ i.token.source ≠ ")") ∧
      List.Perm result [sampleInt 2, sampleOp "+", sampleInt 3, sampleOp "*", sampleInt 4] ∧
      result.length = 7 - 2 :=
  intoPostfixNotation_balanced sampleHost sampleHost_operation
    [sampleBracket "(", sampleInt 2, sampleOp "+", sampleInt 3, sampleBracket ")",
      sampleOp "*", sampleInt 4]
    (by
      intro o ho hoperator
      simp only [List.mem_cons, List.mem_singleton, List.not_mem_nil, or_false] at ho
      rcases ho with rfl | rfl | rfl | rfl | rfl | rfl | rfl
      · exact absurd hoperator (by decide)
      · exact absurd hoperator (by decide)
      · exact sampleOp_isOperatorItem "+" (by decide)
      · exact absurd hoperator (by decide)
      · exact absurd hoperator (by decide)
      · exact sampleOp_isOperatorItem "*" (by decide)
      · exact absurd hoperator (by decide))
    ⟨by decide, by decide⟩

/-! ## The operator rules and the evaluator: lemmas -/

theorem constructed_ofItem (H : Host F) (i : Item F) :
    Constructed H (ProcessReturned.ofItem H i) :=
  Or.inl rfl

theorem constructed_ofException (H : Host F) (t : ExceptionType)
    (ht : t ≠ ExceptionType.Nothing) :
    Constructed H (ProcessReturned.ofException H (Exception.ofType H t)) :=
  Or.inr ⟨ht, rfl⟩

theorem processIntInt_constructed (H : Host F) (x y : Int) (op : Token) :
    Constructed H (processIntInt H x y op) := by
  unfold processIntInt
  split_ifs
  · exact constructed_ofException H _ (by decide)
  · exact constructed_ofItem H _
  · exact constructed_ofItem H _

theorem processFloatFloat_constructed (H : Host F) (x y : F) (op : Token) :
    Constructed H (processFloatFloat H x y op) := by
  unfold processFloatFloat
  split_ifs
  · exact constructed_ofException H _ (by decide)
  · exact constructed_ofItem H _
  · exact constructed_ofItem H _

theorem bind_constructed (H : Host F) {α β : Type} (x : Option α) (y : Option β)
    (g : α → β → Option (ProcessReturned F))
    (hg : ∀ u v q, g u v = some q → Constructed H q)
    (p : ProcessReturned F) (h : (x.bind fun u => y.bind fun v => g u v) = some p) :
    Constructed H p := by
  cases x with
  | none => exact False.elim (Option.noConfusion h)
  | some u =>
    cases y with
    | none => exact False.elim (Option.noConfusion h)
    | some v => exact hg u v p h

theorem some_constructed (H : Host F) {q r : ProcessReturned F} (hr : Constructed H r)
    (h : some r = some q) : Constructed H q := by
  rw [← Option.some.inj h]
  exact hr

theorem compared_constructed (H : Host F) (c : Bool) (i j : Item F) {q : ProcessReturned F}
    (h : (if c = true then some (ProcessReturned.ofItem H i)
      else some (ProcessReturned.ofItem H j)) = some q) : Constructed H q := by
  cases c
  · exact some_constructed H (constructed_ofItem H j) h
  · exact some_constructed H (constructed_ofItem H i) h

/-- Every result of the body of `Process` comes from a constructor of
`ProcessReturned`. -/
theorem processBody_constructed (H : Host F) (a b : Item F) (op : Token)
    (p : ProcessReturned F) (h : processBody H a b op = some p) : Constructed H p := by
  unfold processBody at h
  by_cases c1 : op.source = "*" ∧ a.type = "String" ∧ b.type = "Int"
  · rw [if_pos c1] at h
    exact bind_constructed H _ _ _
      (fun _ _ _ hq => some_constructed H (constructed_ofItem H _) hq) p h
  rw [if_neg c1] at h
  by_cases c2 : op.source = "*" ∧ a.type = "Int" ∧ b.type = "String"
  · rw [if_pos c2] at h
    exact bind_constructed H _ _ _
      (fun _ _ _ hq => some_constructed H (constructed_ofItem H _) hq) p h
  rw [if_neg c2] at h
  by_cases c3 : op.source = "+" ∧ a.type = "String" ∧ b.type = "Char"
  · rw [if_pos c3] at h
    exact bind_constructed H _ _ _
      (fun _ _ _ hq => some_constructed H (constructed_ofItem H _) hq) p h
  rw [if_neg c3] at h
  by_cases c4 : op.source = "+" ∧ a.type = "Char" ∧ b.type = "String"
  · rw [if_pos c4] at h
    exact bind_constructed H _ _ _
      (fun _ _ _ hq => some_constructed H (constructed_ofItem H _) hq) p h
  rw [if_neg c4] at h
  by_cases c5 : (!contain (H.possibleOperations (H.toType a.type)) op.source) = true
  · rw [if_pos c5] at h
    exact some_constructed H (constructed_ofException H _ (by decide)) h
  rw [if_neg c5] at h
  by_cases c6 : a.type = "Int" ∧ b.type = "Int"
  · rw [if_pos c6] at h
    exact bind_constructed H _ _ _
      (fun _ _ _ hq => some_constructed H (processIntInt_constructed H _ _ _) hq) p h
  rw [if_neg c6] at h
  by_cases c7 : a.type = "Float" ∨ b.type = "Float"
  · rw [if_pos c7] at h
    exact bind_constructed H _ _ _
      (fun _ _ _ hq => some_constructed H (processFloatFloat_constructed H _ _ _) hq) p h
  rw [if_neg c7] at h
  by_cases c8 : a.type = "Bool"
  · rw [if_pos c8] at h
    exact bind_constructed H _ _ _ (fun _ _ _ hq => compared_constructed H _ _ _ hq) p h
  rw [if_neg c8] at h
  by_cases c9 : a.type = "String"
  · rw [if_pos c9] at h
    exact bind_constructed H _ _ _ (fun _ _ _ hq => compared_constructed H _ _ _ hq) p h
  rw [if_neg c9] at h
  by_cases c10 : a.type = "Char"
  · rw [if_pos c10] at h
    exact bind_constructed H _ _ _ (fun _ _ _ hq => compared_constructed H _ _ _ hq) p h
  rw [if_neg c10] at h
  exact False.elim (Option.noConfusion h)

/-- Every result of `Process` comes from a constructor of `ProcessReturned`. -/
theorem Process_constructed (H : Host F) (a b : Item F) (op : Token)
    (p : ProcessReturned F) (h : Process H a b op = some p) : Constructed H p := by
  unfold Process at h
  split at h
  · cases h
  · cases h; exact constructed_ofException H _ (by decide)
  · exact processBody_constructed H a b op p h

theorem evaluateStep_value (H : Host F) (v : Item F) (hv : v.type ≠ "Operation")
    (values : List (Item F)) :
    evaluateStep H v values = some (Step.continued (v :: values)) := by
  simp [evaluateStep, hv]

/-- The evaluator pushes a run of value items, first to last. -/
theorem evaluate_values (H : Host F) (vs : List (Item F))
    (hvs : ∀ v ∈ vs, v.type ≠ "Operation") (rest values : List (Item F)) :
    evaluate H (vs ++ rest) values = evaluate H rest (vs.reverse ++ values) := by
  induction vs generalizing values with
  | nil => rfl
  | cons v vs ih =>
    have hv : v.type ≠ "Operation" := hvs v (List.mem_cons_self _ _)
    have hrec := ih (fun w hw => hvs w (List.mem_cons_of_mem _ hw)) (v :: values)
    simp [evaluate, evaluateStep_value H v hv, hrec]

/-- The converter leaves a run of value items in place. -/
theorem postfixLoop_values (H : Host F) (vs : List (Item F)) (hvs : ∀ v ∈ vs, IsValue H v)
    (operations : List Token) (output : List (Item F)) :
    postfixLoop H vs operations output =
      some (output ++ vs ++ operations.map H.itemOfToken) := by
  induction vs generalizing output with
  | nil => simp [postfixLoop]
  | cons v vs ih =>
    have hv := hvs v (List.mem_cons_self _ _)
    have hrec := ih (fun w hw => hvs w (List.mem_cons_of_mem _ hw)) (output ++ [v])
    simp [postfixLoop, postfixStep_value H v hv, hrec]

/-- On value items alone `Calculate` ends with the items on the stack, the
last one on top. -/
theorem calculate_values (H : Host F) (vs : List (Item F)) (hvs : ∀ v ∈ vs, IsValue H v) :
    Calculate H { content := vs } = some (finish H vs.reverse) := by
  have hpostfix : intoPostfixNotation H vs = some vs := by
    simpa [intoPostfixNotation] using postfixLoop_values H vs hvs [] []
  have hpush := evaluate_values H vs (fun v hv => (hvs v hv).notOperation) [] []
  simp only [List.append_nil] at hpush
  simp only [Calculate, hpostfix, hpush, evaluate]

theorem postfix_binary (H : Host F) (l r op : Item F) (hl : IsValue H l) (hr : IsValue H r)
    (hop : IsOperatorItem H op) : intoPostfixNotation H [l, op, r] = some [l, r, op] := by
  simp [intoPostfixNotation, postfixLoop, postfixStep_value, hl, hr, postfixStep_operator, hop,
    popOperators, hop.built]

/-- On `l op r` with a binary operator `Calculate` is `Process` on `r`, `l`. -/
theorem calculate_three (H : Host F) (l r op : Item F) (hl : IsValue H l) (hr : IsValue H r)
    (hop : IsOperatorItem H op) (hbinary : H.isUnaryOperator op.token = false) :
    Calculate H { content := [l, op, r] } = Process H r l op.token := by
  simp only [Calculate, postfix_binary H l r op hl hr hop]
  simp only [evaluate, evaluateStep_value H l hl.notOperation,
    evaluateStep_value H r hr.notOperation]
  simp only [evaluateStep, hop.operation, if_true, hbinary, List.isEmpty_cons, Bool.or_self,
    Bool.false_eq_true, if_false]
  cases hp : Process H r l op.token with
  | none => rfl
  | some p =>
    rcases Process_constructed H r l op.token p hp with h | ⟨hne, h⟩
    · have hnothing : p.exception.type = ExceptionType.Nothing := by rw [h]; rfl
      simp only [hnothing, ne_eq, not_true_eq_false, if_false, finish]
      rw [← h]
    · simp only [hne, ne_eq, not_false_eq_true, if_true]
      rw [← h]

theorem processGate_same (H : Host F) (a b : Item F) (op : Token) (h : a.type = b.type) :
    processGate H a b op = some false := by
  simp [processGate, h]

theorem processGate_numbers (H : Host F) (a b : Item F) (op : Token)
    (ha : isNumber H a = true) (hb : isNumber H b = true) :
    processGate H a b op = some false := by
  simp [processGate, ha, hb]

theorem processGate_possible (H : Host F) (a b : Item F) (op : Token)
    (h : possibleToProcess H a b op = some true) : processGate H a b op = some false := by
  unfold processGate
  split_ifs <;> simp [h]

theorem possibleToProcess_repeat (H : Host F) (a b : Item F) (op : Token)
    (hop : op.source = "*")
    (h : (a.type = "Int" ∧ b.type = "String") ∨ (a.type = "String" ∧ b.type = "Int")) :
    possibleToProcess H a b op = some true := by
  unfold possibleToProcess
  split_ifs with h1 h2 h3 h4
  · rfl
  · rfl
  · rfl
  · rfl
  · exact absurd ⟨hop, h⟩ h3

theorem possibleToProcess_concat (H : Host F) (a b : Item F) (op : Token)
    (hop : op.source = "+")
    (h : (a.type = "Char" ∧ b.type = "String") ∨ (a.type = "String" ∧ b.type = "Char")) :
    possibleToProcess H a b op = some true := by
  unfold possibleToProcess
  split_ifs with h1 h2 h3 h4
  · rfl
  · rfl
  · rfl
  · rfl
  · exact absurd ⟨hop, h⟩ h4

theorem Process_divide_int (H : Host F)
    (hallowed : contain (H.possibleOperations (H.toType "Int")) "/" = true)
    (a b : Item F) (op : Token) (n m : Int) (ha : IsInt a n) (hb : IsInt b m)
    (hop : op.source = "/") :
    Process H a b op = some (processIntInt H n m op) := by
  have hgate := processGate_same H a b op (ha.1.trans hb.1.symm)
  simp [Process, hgate, processBody, ha.1, ha.2, hb.1, hb.2, hop, hallowed, Payload.asInt]

theorem Process_divide_float (H : Host F)
    (hInt : H.toString H.IntType = "Int") (hFloat : H.toString H.FloatType = "Float")
    (hallowed : contain (H.possibleOperations (H.toType "Int")) "/" = true)
    (a b : Item F) (op : Token) (n : Int) (x : F) (ha : IsInt a n) (hb : IsFloat b x)
    (hop : op.source = "/") :
    Process H a b op = some (processFloatFloat H (H.floatOfInt n) x op) := by
  have hgate := processGate_numbers H a b op (by simp [isNumber, contain, hInt, ha.1])
    (by simp [isNumber, contain, hFloat, hb.1])
  simp [Process, hgate, processBody, ha.1, ha.2, hb.1, hb.2, hop, hallowed, Payload.asInt,
    Payload.asFloat, widen]

theorem processIntInt_zeroDivision (H : Host F) (x y : Int) (op : Token) :
    (processIntInt H x y op).exception.type = ExceptionType.ZeroDivisionError ↔
      (op.source = "/" ∧ x = 0) := by
  unfold processIntInt
  split_ifs with h1 h2
  · simp [ProcessReturned.ofException, Exception.ofType, h1]
  · simp [ProcessReturned.ofItem, Exception.ofType, h1]
  · simp [ProcessReturned.ofItem, Exception.ofType, h1]

theorem processFloatFloat_zeroDivision (H : Host F) (x y : F) (op : Token) :
    (processFloatFloat H x y op).exception.type = ExceptionType.ZeroDivisionError ↔
      (op.source = "/" ∧ H.floatIsZero x = true) := by
  unfold processFloatFloat
  split_ifs with h1 h2
  · simp [ProcessReturned.ofException, Exception.ofType, h1]
  · simp [ProcessReturned.ofItem, Exception.ofType, h1]
  · simp [ProcessReturned.ofItem, Exception.ofType, h1]

theorem Process_repeat_left (H : Host F) (a b : Item F) (op : Token) (s : String) (n : Int)
    (ha : IsString a s) (hb : IsInt b n) (hop : op.source = "*") :
    Process H a b op = some (ProcessReturned.ofItem H
      (H.itemOfValue (Payload.string (multiply s n)) "String")) := by
  have hgate := processGate_possible H a b op
    (possibleToProcess_repeat H a b op hop (Or.inr ⟨ha.1, hb.1⟩))
  simp [Process, hgate, processBody, ha.1, ha.2, hb.1, hb.2, hop, Payload.asInt,
    Payload.asString]

theorem Process_repeat_right (H : Host F) (a b : Item F) (op : Token) (s : String) (n : Int)
    (ha : IsInt a n) (hb : IsString b s) (hop : op.source = "*") :
    Process H a b op = some (ProcessReturned.ofItem H
      (H.itemOfValue (Payload.string (multiply s n)) "String")) := by
  have hgate := processGate_possible H a b op
    (possibleToProcess_repeat H a b op hop (Or.inl ⟨ha.1, hb.1⟩))
  simp [Process, hgate, processBody, ha.1, ha.2, hb.1, hb.2, hop, Payload.asInt,
    Payload.asString]

theorem Process_concat_string_char (H : Host F) (a b : Item F) (op : Token) (s : String)
    (c : Char) (ha : IsString a s) (hb : IsChar b c) (hop : op.source = "+") :
    Process H a b op = some (ProcessReturned.ofItem H
      (H.itemOfValue (Payload.string (String.singleton c ++ s)) "String")) := by
  have hgate := processGate_possible H a b op
    (possibleToProcess_concat H a b op hop (Or.inr ⟨ha.1, hb.1⟩))
  simp [Process, hgate, processBody, ha.1, ha.2, hb.1, hb.2, hop, Payload.asChar,
    Payload.asString]

theorem Process_concat_char_string (H : Host F) (a b : Item F) (op : Token) (s : String)
    (c : Char) (ha : IsChar a c) (hb : IsString b s) (hop : op.source = "+") :
    Process H a b op = some (ProcessReturned.ofItem H
      (H.itemOfValue (Payload.string (s ++ String.singleton c)) "String")) := by
  have hgate := processGate_possible H a b op
    (possibleToProcess_concat H a b op hop (Or.inl ⟨ha.1, hb.1⟩))
  simp [Process, hgate, processBody, ha.1, ha.2, hb.1, hb.2, hop, Payload.asChar,
    Payload.asString]

/-- Where the claim C8 expects `TypeError`, `possibleToProcess` runs past its
last `if` and `Process` has no defined result, in every host that prints its
numeric enumerators as `Int` and `Float`. -/
theorem Process_incompatible (H : Host F)
    (hInt : H.toString H.IntType = "Int") (hFloat : H.toString H.FloatType = "Float")
    (a b : Item F) (op : Token) (hdiff : a.type ≠ b.type)
    (hnum : ¬((a.type = "Int" ∨ a.type = "Float") ∧ (b.type = "Int" ∨ b.type = "Float")))
    (hrepeat : ¬(op.source = "*" ∧
      ((a.type = "Int" ∧ b.type = "String") ∨ (a.type = "String" ∧ b.type = "Int"))))
    (hconcat : ¬(op.source = "+" ∧
      ((a.type = "Char" ∧ b.type = "String") ∨ (a.type = "String" ∧ b.type = "Char")))) :
    possibleToProcess H a b op = none ∧ Process H a b op = none := by
  have hnumber : (isNumber H a && isNumber H b) = false := by
    simp only [isNumber, contain, hInt, hFloat, List.mem_cons, List.mem_singleton,
      List.not_mem_nil, or_false, Bool.and_eq_false_iff, decide_eq_false_iff_not]
    by_cases ha : a.type = "Int" ∨ a.type = "Float"
    · exact Or.inr (fun hb => hnum ⟨ha, hb⟩)
    · exact Or.inl ha
  have hpossible : possibleToProcess H a b op = none := by
    simp [possibleToProcess, hdiff, hnumber, hrepeat, hconcat]
  refine ⟨hpossible, ?_⟩
  simp [Process, processGate, hdiff, hnumber, hpossible]

/-! ## The operator rules and the evaluator: the claims -/

/-- C4: for value items `l`, `r` and an operator item `op` that is not
lexically unary, `Calculate` on the infix expression `l op r` returns exactly
the outcome of `Process(r, l, op)`: the first popped operand, the right-hand
one, is the first argument, and a `Process` error is returned unchanged. -/
theorem Calculate_operand_order (H : Host F) (l r op : Item F) (hl : IsValue H l)
    (hr : IsValue H r) (hop : IsOperatorItem H op)
    (hbinary : H.isUnaryOperator op.token = false) :
    Calculate H { content := [l, op, r] } = Process H r l op.token :=
  calculate_three H l r op hl hr hop hbinary

/-- C4 at `5 - 2`: `Calculate` is `Process` on `2`, `5`. -/
theorem Calculate_operand_order_witness :
    Calculate sampleHost { content := [sampleInt 5, sampleOp "-", sampleInt 2] } =
      Process sampleHost (sampleInt 2) (sampleInt 5) (sampleToken "-") :=
  Calculate_operand_order sampleHost (sampleInt 5) (sampleInt 2) (sampleOp "-")
    (sampleValue_isValue _ _ (by decide)) (sampleValue_isValue _ _ (by decide))
    (sampleOp_isOperatorItem "-" (by decide)) (by decide)

/-- C5: for an `Int` or `Float` left operand `l` and an `Int` right operand
`r` holding `n`, where `/` is allowed for `Int`, `Calculate` on `l / r` returns,
and its exception is `ZeroDivisionError` if and only if `n = 0`: the divisor is
the operand tested. -/
theorem Calculate_zero_division (H : Host F)
    (hInt : H.toString H.IntType = "Int") (hFloat : H.toString H.FloatType = "Float")
    (hallowed : contain (H.possibleOperations (H.toType "Int")) "/" = true)
    (hzero : ∀ n : Int, H.floatIsZero (H.floatOfInt n) = true ↔ n = 0)
    (l r op : Item F) (n : Int)
    (hl : IsValue H l) (hlt : (∃ m, IsInt l m) ∨ (∃ x, IsFloat l x))
    (hr : IsValue H r) (hrt : IsInt r n)
    (hop : IsOperatorItem H op) (hbinary : H.isUnaryOperator op.token = false)
    (hdiv : op.token.source = "/") :
    ∃ result, Calculate H { content := [l, op, r] } = some result ∧
      (result.exception.type = ExceptionType.ZeroDivisionError ↔ n = 0) := by
  rw [calculate_three H l r op hl hr hop hbinary]
  rcases hlt with ⟨m, hm⟩ | ⟨x, hx⟩
  · refine ⟨_, Process_divide_int H hallowed r l op.token n m hrt hm hdiv, ?_⟩
    rw [processIntInt_zeroDivision]
    exact ⟨fun h => h.2, fun h => ⟨hdiv, h⟩⟩
  · refine ⟨_, Process_divide_float H hInt hFloat hallowed r l op.token n x hrt hx hdiv, ?_⟩
    rw [processFloatFloat_zeroDivision]
    exact ⟨fun h => (hzero n).1 h.2, fun h => ⟨hdiv, (hzero n).2 h⟩⟩

theorem sampleHost_zero (n : Int) :
    sampleHost.floatIsZero (sampleHost.floatOfInt n) = true ↔ n = 0 := by
  show (((n : ℚ) == 0) = true) ↔ n = 0
  simp

/-- C5 at `5 / 0`, `5.0 / 0` and `0 / 5`: the first two fail with
`ZeroDivisionError`, the third does not. -/
theorem Calculate_zero_division_witness :
    (∃ result, Calculate sampleHost
        { content := [sampleInt 5, sampleOp "/", sampleInt 0] } = some result ∧
      (result.exception.type = ExceptionType.ZeroDivisionError ↔ (0 : Int) = 0)) ∧
    (∃ result, Calculate sampleHost
        { content := [sampleFloat 5, sampleOp "/", sampleInt 0] } = some result ∧
      (result.exception.type = ExceptionType.ZeroDivisionError ↔ (0 : Int) = 0)) ∧
    (∃ result, Calculate sampleHost
        { content := [sampleInt 0, sampleOp "/", sampleInt 5] } = some result ∧
      (result.exception.type = ExceptionType.ZeroDivisionError ↔ (5 : Int) = 0)) :=
  ⟨Calculate_zero_division sampleHost rfl rfl (by decide) sampleHost_zero
      (sampleInt 5) (sampleInt 0) (sampleOp "/") 0
      (sampleValue_isValue _ _ (by decide)) (Or.inl ⟨5, rfl, rfl⟩)
      (sampleValue_isValue _ _ (by decide)) ⟨rfl, rfl⟩
      (sampleOp_isOperatorItem "/" (by decide)) (by decide) rfl,
   Calculate_zero_division sampleHost rfl rfl (by decide) sampleHost_zero
      (sampleFloat 5) (sampleInt 0) (sampleOp "/") 0
      (sampleValue_isValue _ _ (by decide)) (Or.inr ⟨5, rfl, rfl⟩)
      (sampleValue_isValue _ _ (by decide)) ⟨rfl, rfl⟩
      (sampleOp_isOperatorItem "/" (by decide)) (by decide) rfl,
   Calculate_zero_division sampleHost rfl rfl (by decide) sampleHost_zero
      (sampleInt 0) (sampleInt 5) (sampleOp "/") 5
      (sampleValue_isValue _ _ (by decide)) (Or.inl ⟨0, rfl, rfl⟩)
      (sampleValue_isValue _ _ (by decide)) ⟨rfl, rfl⟩
      (sampleOp_isOperatorItem "/" (by decide)) (by decide) rfl⟩

/-- C6: for a `String` item holding `s` and an `Int` item holding `k ≥ 0`,
`Process` under `*` succeeds in both operand orders with the same `String`
item, whose text is `s` concatenated `k` times. -/
theorem Process_string_repetition (H : Host F) (a b : Item F) (op : Token) (s : String)
    (k : Nat) (ha : IsString a s) (hb : IsInt b (k : Int)) (hop : op.source = "*") :
    Process H a b op = some (ProcessReturned.ofItem H
        (H.itemOfValue (Payload.string (String.join (List.replicate k s))) "String")) ∧
      Process H b a op = Process H a b op := by
  rw [Process_repeat_left H a b op s k ha hb hop, Process_repeat_right H b a op s k hb ha hop]
  simp [multiply]

/-- C6 at `"ab" * 3` and `3 * "ab"`: both are the `String` `"ababab"`. -/
theorem Process_string_repetition_witness :
    Process sampleHost (sampleString "ab") (sampleInt 3) (sampleToken "*") =
        some (ProcessReturned.ofItem sampleHost (sampleString "ababab")) ∧
      Process sampleHost (sampleInt 3) (sampleString "ab") (sampleToken "*") =
        Process sampleHost (sampleString "ab") (sampleInt 3) (sampleToken "*") :=
  Process_string_repetition sampleHost (sampleString "ab") (sampleInt 3) (sampleToken "*")
    "ab" 3 ⟨rfl, rfl⟩ ⟨rfl, rfl⟩ rfl

/-- C7: for a `Char` item holding `c` and a `String` item holding `s`,
`Calculate` on `c + s` yields the `String` of `c` followed by `s`, and on
`s + c` the `String` of `s` followed by `c`: the character goes where it
stands in the source. -/
theorem Calculate_char_string (H : Host F) (x y op : Item F) (c : Char) (s : String)
    (hx : IsValue H x) (hxc : IsChar x c) (hy : IsValue H y) (hys : IsString y s)
    (hop : IsOperatorItem H op) (hbinary : H.isUnaryOperator op.token = false)
    (hplus : op.token.source = "+") :
    Calculate H { content := [x, op, y] } = some (ProcessReturned.ofItem H
        (H.itemOfValue (Payload.string (String.singleton c ++ s)) "String")) ∧
      Calculate H { content := [y, op, x] } = some (ProcessReturned.ofItem H
        (H.itemOfValue (Payload.string (s ++ String.singleton c)) "String")) := by
  rw [calculate_three H x y op hx hy hop hbinary, calculate_three H y x op hy hx hop hbinary]
  exact ⟨Process_concat_string_char H y x op.token s c hys hxc hplus,
    Process_concat_char_string H x y op.token s c hxc hys hplus⟩

/-- C7 at `'x' + "yz"` and `"yz" + 'x'`: the results are `"xyz"` and `"yzx"`. -/
theorem Calculate_char_string_witness :
    Calculate sampleHost { content := [sampleChar 'x', sampleOp "+", sampleString "yz"] } =
        some (ProcessReturned.ofItem sampleHost (sampleString "xyz")) ∧
      Calculate sampleHost { content := [sampleString "yz", sampleOp "+", sampleChar 'x'] } =
        some (ProcessReturned.ofItem sampleHost (sampleString "yzx")) :=
  Calculate_char_string sampleHost (sampleChar 'x') (sampleString "yz") (sampleOp "+") 'x' "yz"
    (sampleValue_isValue _ _ (by decide)) ⟨rfl, rfl⟩
    (sampleValue_isValue _ _ (by decide)) ⟨rfl, rfl⟩
    (sampleOp_isOperatorItem "+" (by decide)) (by decide) rfl

/-- C8 at `"a" + 1` and `true * 1`: `possibleToProcess` ends without a
`return`, so that `Process` has no defined result where the claim expects
`TypeError`. -/
theorem Process_mismatch_undefined :
    possibleToProcess sampleHost (sampleString "a") (sampleInt 1) (sampleToken "+") = none ∧
    Process sampleHost (sampleString "a") (sampleInt 1) (sampleToken "+") = none ∧
    possibleToProcess sampleHost (sampleBool true) (sampleInt 1) (sampleToken "*") = none ∧
    Process sampleHost (sampleBool true) (sampleInt 1) (sampleToken "*") = none := by
  decide

/-- C9: for a `Bool` item holding `b`, `ProcessUnary` under `!` succeeds with
the `Bool` item holding `!b`, and under `$-` or `$+` fails with
`IncorrectOperationArguments`. -/
theorem ProcessUnary_bool (H : Host F) (a : Item F) (b : Bool) (op : Token)
    (ha : IsBool a b) :
    (op.source = "!" → ProcessUnary H a op =
      some (ProcessReturned.ofItem H (H.itemOfValue (Payload.bool (!b)) "Bool"))) ∧
    (op.source = "$-" ∨ op.source = "$+" → ProcessUnary H a op =
      some (ProcessReturned.ofException H
        (Exception.ofType H ExceptionType.IncorrectOperationArguments))) := by
  constructor
  · intro hop
    simp [ProcessUnary, contain, ha.1, ha.2, hop, Payload.asBool]
  · rintro (hop | hop) <;>
      simp [ProcessUnary, contain, ha.1, ha.2, hop, Payload.asBool]

/-- C9 at `!true` and `$-true`: the first is `false`, the second fails with
`IncorrectOperationArguments`. -/
theorem ProcessUnary_bool_witness :
    ProcessUnary sampleHost (sampleBool true) (sampleToken "!") =
        some (ProcessReturned.ofItem sampleHost (sampleBool false)) ∧
      ProcessUnary sampleHost (sampleBool true) (sampleToken "$-") =
        some (ProcessReturned.ofException sampleHost
          (Exception.ofType sampleHost ExceptionType.IncorrectOperationArguments)) :=
  ⟨(ProcessUnary_bool sampleHost (sampleBool true) true (sampleToken "!") ⟨rfl, rfl⟩).1 rfl,
   (ProcessUnary_bool sampleHost (sampleBool true) true (sampleToken "$-") ⟨rfl, rfl⟩).2
      (Or.inl rfl)⟩

/-- C10: on an expression of value items alone, `Calculate` returns the item
unchanged when there is exactly one, and fails with `RuntimeError` when there
are none or at least two. -/
theorem Calculate_values_only (H : Host F) (vs : List (Item F))
    (hvs : ∀ v ∈ vs, IsValue H v) :
    (∀ v, vs = [v] → Calculate H { content := vs } = some (ProcessReturned.ofItem H v)) ∧
    (vs.length ≠ 1 → Calculate H { content := vs } =
      some (ProcessReturned.ofException H (Exception.ofType H ExceptionType.RuntimeError))) := by
  rw [calculate_values H vs hvs]
  constructor
  · rintro v rfl
    rfl
  · intro hlen
    unfold finish
    split
    · next top heq =>
      have hone : vs.reverse.length = 1 := by rw [heq]; rfl
      rw [List.length_reverse] at hone
      exact absurd hone hlen
    · rfl

/-- C10 at `7`, at the empty expression and at `1 2`: the first is `7`, the
other two fail with `RuntimeError`. -/
theorem Calculate_values_only_witness :
    Calculate sampleHost { content := [sampleInt 7] } =
        some (ProcessReturned.ofItem sampleHost (sampleInt 7)) ∧
      Calculate sampleHost { content := [] } =
        some (ProcessReturned.ofException sampleHost
          (Exception.ofType sampleHost ExceptionType.RuntimeError)) ∧
      Calculate sampleHost { content := [sampleInt 1, sampleInt 2] } =
        some (ProcessReturned.ofException sampleHost
          (Exception.ofType sampleHost ExceptionType.RuntimeError)) :=
  ⟨(Calculate_values_only sampleHost [sampleInt 7]
      (by intro v hv; rw [List.mem_singleton.1 hv]; exact sampleValue_isValue _ _ (by decide))).1
      (sampleInt 7) rfl,
   (Calculate_values_only sampleHost [] (by intro v hv; cases hv)).2 (by decide),
   (Calculate_values_only sampleHost [sampleInt 1, sampleInt 2]
      (by
        intro v hv
        simp only [List.mem_cons, List.mem_singleton, List.not_mem_nil, or_false] at hv
        rcases hv with rfl | rfl <;> exact sampleValue_isValue _ _ (by decide))).2
      (by decide)⟩

/-! ## Variables and scopes: lemmas and claims -/

theorem Scope.lookup_assign (scope : Scope F) (name : String) (v : VariableObject F)
    (y : String) :
    Scope.lookup (Scope.assign scope name v) y =
      if y = name then some v else Scope.lookup scope y := by
  induction scope with
  | nil =>
    by_cases hy : y = name
    · simp [Scope.assign, Scope.lookup, hy]
    · have hy' : ¬name = y := fun h => hy h.symm
      simp [Scope.assign, Scope.lookup, hy, hy']
  | cons binding rest ih =>
    obtain ⟨key, w⟩ := binding
    by_cases hkey : key = name
    · by_cases hy : y = name
      · simp [Scope.assign, Scope.lookup, hkey, hy]
      · have hy' : ¬name = y := fun h => hy h.symm
        simp [Scope.assign, Scope.lookup, hkey, hy, hy']
    · by_cases hky : key = y
      · have hy : ¬y = name := fun h => hkey (hky.trans h)
        simp [Scope.assign, Scope.lookup, hkey, hky, hy]
      · simp [Scope.assign, Scope.lookup, hkey, hky, ih]

theorem findScopes_eq_isSome (name : String) (scopes : List (Scope F)) :
    findScopes name scopes = (searchScopes name scopes).isSome := by
  induction scopes with
  | nil => rfl
  | cons scope outer ih =>
    cases h : Scope.lookup scope name <;> simp [findScopes, searchScopes, h, ih]

/-- The method `find` answers whether `get` returns a variable. -/
theorem ScopeManager.find_eq_isSome (sm : ScopeManager F) (name : String) :
    sm.find name = (sm.get name).isSome :=
  findScopes_eq_isSome name sm.m.reverse

theorem ScopeManager.add_append (H : Host F) (outer : List (Scope F)) (back : Scope F)
    (v : VariableObject F) :
    ScopeManager.add H { m := outer ++ [back] } v =
      if (Scope.lookup back v.name).isSome then
        some (Exception.ofType H ExceptionType.RedefinitionError, { m := outer ++ [back] })
      else
        some (Exception.ofType H ExceptionType.Nothing,
          { m := outer ++ [Scope.assign back v.name v] }) := by
  simp [ScopeManager.add]

theorem ScopeManager.get_append (outer : List (Scope F)) (back : Scope F) (name : String) :
    ScopeManager.get { m := outer ++ [back] } name =
      match Scope.lookup back name with
      | some v => some v
      | none => ScopeManager.get { m := outer } name := by
  cases h : Scope.lookup back name <;> simp [ScopeManager.get, searchScopes, h]

theorem ScopeManager.deleteLastScope_append (outer : List (Scope F)) (back : Scope F) :
    ScopeManager.deleteLastScope { m := outer ++ [back] } = some { m := outer } := by
  unfold ScopeManager.deleteLastScope
  cases h : outer ++ [back] with
  | nil => simp at h
  | cons a l =>
    simp only [Option.some.injEq, ScopeManager.mk.injEq]
    rw [← h]
    simp

/-- C11: in a scope manager where `x` is bound and `get(x)` is `vOuter`, for
every variable `vInner` named `x`: after `addScope()`, `add(vInner)` returns
`Nothing` and `get(x)` is `vInner`; after the following `deleteLastScope()`,
`get(x)` is `vOuter` again and the scope stack is the one before `addScope()`. -/
theorem ScopeManager_shadowing (H : Host F) (sm : ScopeManager F) (x : String)
    (vOuter vInner : VariableObject F) (houter : sm.get x = some vOuter)
    (hname : vInner.name = x) :
    ∃ inner, sm.addScope.add H vInner = some (Exception.ofType H ExceptionType.Nothing, inner) ∧
      inner.get x = some vInner ∧
      ∃ after, inner.deleteLastScope = some after ∧ after.get x = some vOuter ∧ after = sm := by
  refine ⟨{ m := sm.m ++ [[(x, vInner)]] }, ?_, ?_, sm, ?_, houter, rfl⟩
  · simp [ScopeManager.addScope, ScopeManager.add_append, Scope.lookup, Scope.assign, hname]
  · simp [ScopeManager.get_append, Scope.lookup]
  · exact ScopeManager.deleteLastScope_append sm.m _

/-- C11 in the sample: `x` is the `Int` 1 outside and the `Int` 2 inside. -/
theorem ScopeManager_shadowing_witness :
    ∃ inner, sampleWorld.scopeManager.addScope.add sampleHost
        (sampleVariable "x" "Int" (sampleInt 2)) =
        some (Exception.ofType sampleHost ExceptionType.Nothing, inner) ∧
      inner.get "x" = some (sampleVariable "x" "Int" (sampleInt 2)) ∧
      ∃ after, inner.deleteLastScope = some after ∧
        after.get "x" = some (sampleVariable "x" "Int" (sampleInt 1)) ∧
        after = sampleWorld.scopeManager :=
  ScopeManager_shadowing sampleHost sampleWorld.scopeManager "x"
    (sampleVariable "x" "Int" (sampleInt 1)) (sampleVariable "x" "Int" (sampleInt 2))
    (by decide) rfl

/-- C12: in a scope manager whose innermost scope is `back`, `add(v)` returns
`RedefinitionError` if and only if `back` binds `v.name`, whatever the outer
scopes bind; with `RedefinitionError` the scope stack is unchanged, otherwise
the exception is `Nothing`, the outer scopes are unchanged and the innermost
scope gains the binding of `v.name` to `v` and keeps its other bindings. -/
theorem ScopeManager_add_redefinition (H : Host F) (sm : ScopeManager F)
    (outer : List (Scope F)) (back : Scope F) (hm : sm.m = outer ++ [back])
    (v : VariableObject F) :
    ∃ e sm', sm.add H v = some (e, sm') ∧
      (e.type = ExceptionType.RedefinitionError ↔ (Scope.lookup back v.name).isSome = true) ∧
      (e.type = ExceptionType.RedefinitionError → sm' = sm) ∧
      (e.type ≠ ExceptionType.RedefinitionError → e.type = ExceptionType.Nothing ∧
        ∃ back', sm'.m = outer ++ [back'] ∧
          ∀ y, Scope.lookup back' y = if y = v.name then some v else Scope.lookup back y) := by
  obtain ⟨m⟩ := sm
  simp only at hm
  subst hm
  rw [ScopeManager.add_append]
  by_cases hbound : (Scope.lookup back v.name).isSome = true
  · rw [if_pos hbound]
    refine ⟨_, _, rfl, ?_, fun _ => rfl, ?_⟩
    · simp [Exception.ofType, hbound]
    · intro h
      exact absurd rfl h
  · rw [if_neg hbound]
    refine ⟨_, _, rfl, ?_, ?_, ?_⟩
    · simp [Exception.ofType, hbound]
    · intro h
      simp [Exception.ofType] at h
    · intro _
      exact ⟨rfl, _, rfl, Scope.lookup_assign back v.name v⟩

/-- C12 in the sample: declaring `x` again in the scope that binds it. -/
theorem ScopeManager_add_redefinition_witness :
    ∃ e sm', sampleWorld.scopeManager.add sampleHost
        (sampleVariable "x" "Int" (sampleInt 2)) = some (e, sm') ∧
      (e.type = ExceptionType.RedefinitionError ↔
        (Scope.lookup [("x", sampleVariable "x" "Int" (sampleInt 1))] "x").isSome = true) ∧
      (e.type = ExceptionType.RedefinitionError → sm' = sampleWorld.scopeManager) ∧
      (e.type ≠ ExceptionType.RedefinitionError → e.type = ExceptionType.Nothing ∧
        ∃ back', sm'.m = [] ++ [back'] ∧
          ∀ y, Scope.lookup back' y =
            if y = "x" then some (sampleVariable "x" "Int" (sampleInt 2))
            else Scope.lookup [("x", sampleVariable "x" "Int" (sampleInt 1))] y) :=
  ScopeManager_add_redefinition sampleHost sampleWorld.scopeManager []
    [("x", sampleVariable "x" "Int" (sampleInt 1))] rfl (sampleVariable "x" "Int" (sampleInt 2))

theorem addType_closed (v : VariableObject F) (t : String) (ht : t ≠ "Any")
    (hclosed : v.isAnyType = false) : (v.addType t).isAnyType = false := by
  have hany : "Any" ∉ v.type := by simpa [VariableObject.isAnyType] using hclosed
  have ht' : ¬"Any" = t := fun h => ht h.symm
  unfold VariableObject.addType VariableObject.isAnyType insertType
  rw [if_neg hany]
  split_ifs <;> simp [hany, ht']

/-- C18, as the code has it: when `isAnyType()` is false, it is still false
after `addType(t)` for every `t` other than `"Any"`, and so after any sequence
of `addType` calls none of which adds `"Any"`. -/
theorem addType_stays_closed (v : VariableObject F) (hclosed : v.isAnyType = false) :
    (∀ t : String, t ≠ "Any" → (v.addType t).isAnyType = false) ∧
    (∀ ts : List String, "Any" ∉ ts →
      (ts.foldl VariableObject.addType v).isAnyType = false) := by
  refine ⟨fun t ht => addType_closed v t ht hclosed, ?_⟩
  intro ts
  induction ts generalizing v with
  | nil => intro _; exact hclosed
  | cons t ts ih =>
    intro hts
    have ht : t ≠ "Any" := fun h => hts (by simp [h])
    have hrest : "Any" ∉ ts := fun h => hts (List.mem_cons_of_mem _ h)
    exact ih (v.addType t) (addType_closed v t ht hclosed) hrest

/-- C18 in the sample: a variable of type `Int` is not of any type after
`addType("Float")`, nor after `addType("Float")`, `addType("Int")`. -/
theorem addType_stays_closed_witness :
    (((VariableObject.fresh (sampleInt 0)).addType "Int").addType "Float").isAnyType = false ∧
    (["Float", "Int"].foldl VariableObject.addType
      ((VariableObject.fresh (sampleInt 0)).addType "Int")).isAnyType = false :=
  ⟨(addType_stays_closed ((VariableObject.fresh (sampleInt 0)).addType "Int")
      (by decide)).1 "Float" (by decide),
   (addType_stays_closed ((VariableObject.fresh (sampleInt 0)).addType "Int")
      (by decide)).2 ["Float", "Int"] (by decide)⟩

/-- C18 fails at `addType("Any")`: a fresh variable after `addType("Int")` is
not of any type, and after a further `addType("Any")` it is again. -/
theorem addType_reverts_to_any :
    ((VariableObject.fresh (sampleInt 0)).addType "Int").isAnyType = false ∧
    (((VariableObject.fresh (sampleInt 0)).addType "Int").addType "Any").isAnyType = true := by
  decide

/-! ## The function invoker: lemmas and claims -/

/-- The first loop of `runWithArgs` passes exactly when, at every position,
the argument has the declared type or the declared type is `Any`. -/
theorem argumentsMatch_iff (args : List FunctionArgument) (init : List (Item F)) :
    argumentsMatch args init = true ↔
      ∀ (i : Nat) (ha : i < args.length) (hi : i < init.length),
        args[i].type = init[i].type ∨ args[i].type = "Any" := by
  induction args generalizing init with
  | nil => simp [argumentsMatch]
  | cons arg args ih =>
    cases init with
    | nil => simp [argumentsMatch]
    | cons item init =>
      by_cases hhead : arg.type = item.type ∨ arg.type = "Any"
      · simp only [argumentsMatch, hhead, if_true, ih]
        constructor
        · intro h i ha hi
          cases i with
          | zero => exact hhead
          | succ j => exact h j (by simpa using ha) (by simpa using hi)
        · intro h i ha hi
          exact h (i + 1) (by simpa using ha) (by simpa using hi)
      · simp only [argumentsMatch, hhead, if_false, Bool.false_eq_true, false_iff]
        intro h
        exact hhead (h 0 (by simp) (by simp))

theorem bindArguments_length (args : List FunctionArgument) (init : List (Item F))
    (hlen : init.length = args.length) : (bindArguments args init).length = args.length := by
  induction args generalizing init with
  | nil => cases init <;> simp [bindArguments]
  | cons arg args ih =>
    cases init with
    | nil => simp at hlen
    | cons item init => simp [bindArguments, ih init (by simpa using hlen)]

theorem bindArguments_getElem (args : List FunctionArgument) (init : List (Item F))
    (i : Nat) (ha : i < args.length) (hi : i < init.length)
    (hb : i < (bindArguments args init).length) :
    (bindArguments args init)[i] = bindArgument args[i] init[i] := by
  induction args generalizing init i with
  | nil => simp at ha
  | cons arg args ih =>
    cases init with
    | nil => simp at hi
    | cons item init =>
      cases i with
      | zero => simp [bindArguments]
      | succ j =>
        simp only [bindArguments, List.getElem_cons_succ]
        exact ih init j _ _ _

theorem bindArgument_fields (arg : FunctionArgument) (item : Item F) :
    (bindArgument arg item).name = arg.name ∧ (bindArgument arg item).item = item ∧
      (bindArgument arg item).isMutable = true ∧
      (bindArgument arg item).getType = [arg.type] := by
  simp [bindArgument, VariableObject.fresh, VariableObject.addType, VariableObject.getType,
    insertType]

/-- Past the arity and type checks `runWithArgs` is what `interpretResult`
makes of the executor's result on the body and the bindings. -/
theorem runWithArgs_checked (H : Host F) (execute : Executor F) (f : Function)
    (init : List (Item F)) (hlen : init.length = f.args.length)
    (hmatch : argumentsMatch f.args init = true) :
    runWithArgs H execute f init =
      interpretResult H f (execute f.representation (bindArguments f.args init)) := by
  simp [runWithArgs, hlen, hmatch]

theorem interpretResult_return (H : Host F) (f : Function) (result : ExecuteReturned F)
    (hreturn : result.exception.type = ExceptionType.RETURN) :
    interpretResult H f result =
      if result.item.type ∉ f.type ∧ "Any" ∉ f.type then
        FunctionReturned.ofException H (Exception.ofType H ExceptionType.TypeError)
      else FunctionReturned.ofItem H result.item := by
  unfold interpretResult
  rw [if_pos hreturn]
  by_cases h1 : result.item.type ∈ f.type <;> by_cases h2 : "Any" ∈ f.type <;>
    simp [Function.containType, Function.isAnyType, h1, h2]

theorem interpretResult_nothing (H : Host F) (f : Function) (result : ExecuteReturned F)
    (hnothing : result.exception.type = ExceptionType.Nothing) :
    interpretResult H f result =
      if "Unit" ∉ f.type ∧ "Any" ∉ f.type then
        FunctionReturned.ofException H (Exception.ofType H ExceptionType.EndOfFunction)
      else FunctionReturned.ofException H (Exception.ofType H ExceptionType.Nothing) := by
  unfold interpretResult
  simp only [hnothing]
  by_cases h1 : "Unit" ∈ f.type <;> by_cases h2 : "Any" ∈ f.type <;>
    simp [Function.containType, Function.isAnyType, h1, h2]

/-- C13: with fewer arguments than parameters `runWithArgs` fails with
`FunctionArgumentLack`, with more with `FunctionArgumentExcess`, at the start
line of the function, whatever the types of the arguments; in both cases the
result is the same for every executor. -/
theorem runWithArgs_arity (H : Host F) (execute : Executor F) (f : Function)
    (init : List (Item F)) :
    (init.length < f.args.length →
      runWithArgs H execute f init = FunctionReturned.ofException H
        { type := ExceptionType.FunctionArgumentLack, line := f.startIndex }) ∧
    (init.length > f.args.length →
      runWithArgs H execute f init = FunctionReturned.ofException H
        { type := ExceptionType.FunctionArgumentExcess, line := f.startIndex }) ∧
    (init.length ≠ f.args.length →
      ∀ execute' : Executor F, runWithArgs H execute' f init = runWithArgs H execute f init) := by
  refine ⟨?_, ?_, ?_⟩
  · intro h
    simp [runWithArgs, h]
  · intro h
    have h' : ¬init.length < f.args.length := by omega
    simp [runWithArgs, h, h']
  · intro h execute'
    by_cases hlt : init.length < f.args.length
    · simp [runWithArgs, hlt]
    · have hgt : init.length > f.args.length := by omega
      simp [runWithArgs, hlt, hgt]

/-- C13 in the sample: a function of two parameters called with one argument
and with three. -/
theorem runWithArgs_arity_witness :
    runWithArgs sampleHost sampleExecutor sampleFunction [sampleInt 1] =
        FunctionReturned.ofException sampleHost
          { type := ExceptionType.FunctionArgumentLack, line := 10 } ∧
      runWithArgs sampleHost sampleExecutor sampleFunction
          [sampleInt 1, sampleString "s", sampleInt 3] =
        FunctionReturned.ofException sampleHost
          { type := ExceptionType.FunctionArgumentExcess, line := 10 } :=
  ⟨(runWithArgs_arity sampleHost sampleExecutor sampleFunction [sampleInt 1]).1 (by decide),
   (runWithArgs_arity sampleHost sampleExecutor sampleFunction
      [sampleInt 1, sampleString "s", sampleInt 3]).2.1 (by decide)⟩

/-- C14: with as many arguments as parameters, if at some position the
declared type is not `Any` and differs from the tag of the argument,
`runWithArgs` fails with `TypeError` for every executor; if there is no such
position, the executor is invoked on the body with one binding for each
parameter, in order, which has the name of the parameter, the argument as its
item, `isMutable = true` and the type set holding the declared type alone. -/
theorem runWithArgs_argument_types (H : Host F) (execute : Executor F) (f : Function)
    (init : List (Item F)) (hlen : init.length = f.args.length) :
    ((∃ (i : Nat) (ha : i < f.args.length) (hi : i < init.length),
        f.args[i].type ≠ "Any" ∧ f.args[i].type ≠ init[i].type) →
      runWithArgs H execute f init =
        FunctionReturned.ofException H (Exception.ofType H ExceptionType.TypeError)) ∧
    ((¬∃ (i : Nat) (ha : i < f.args.length) (hi : i < init.length),
        f.args[i].type ≠ "Any" ∧ f.args[i].type ≠ init[i].type) →
      runWithArgs H execute f init =
        interpretResult H f (execute f.representation (bindArguments f.args init)) ∧
      (bindArguments f.args init).length = f.args.length ∧
      ∀ (i : Nat) (ha : i < f.args.length) (hi : i < init.length)
        (hb : i < (bindArguments f.args init).length),
        (bindArguments f.args init)[i].name = f.args[i].name ∧
        (bindArguments f.args init)[i].item = init[i] ∧
        (bindArguments f.args init)[i].isMutable = true ∧
        (bindArguments f.args init)[i].getType = [f.args[i].type]) := by
  constructor
  · rintro ⟨i, ha, hi, hany, hdiff⟩
    have hmatch : argumentsMatch f.args init = false := by
      rw [Bool.eq_false_iff]
      intro h
      rcases (argumentsMatch_iff f.args init).1 h i ha hi with h1 | h1
      · exact hdiff h1
      · exact hany h1
    simp [runWithArgs, hlen, hmatch]
  · intro hnone
    have hmatch : argumentsMatch f.args init = true := by
      rw [argumentsMatch_iff]
      intro i ha hi
      by_contra hcon
      exact hnone ⟨i, ha, hi, fun h => hcon (Or.inr h), fun h => hcon (Or.inl h)⟩
    refine ⟨runWithArgs_checked H execute f init hlen hmatch,
      bindArguments_length f.args init hlen, ?_⟩
    intro i ha hi hb
    rw [bindArguments_getElem f.args init i ha hi hb]
    exact bindArgument_fields _ _

/-- C14 in the sample: the second parameter is declared `Int` and receives a
`String`. -/
theorem runWithArgs_argument_types_witness :
    runWithArgs sampleHost sampleExecutor sampleFunction [sampleInt 1, sampleString "s"] =
      FunctionReturned.ofException sampleHost
        (Exception.ofType sampleHost ExceptionType.TypeError) :=
  (runWithArgs_argument_types sampleHost sampleExecutor sampleFunction
      [sampleInt 1, sampleString "s"] rfl).1
    ⟨1, by decide, by decide, by decide, by decide⟩

/-- C15: past the arity and type checks, when the executor returns the signal
`RETURN` with the item `v`, `runWithArgs` fails with `TypeError` if and only if
the declared return types hold neither the tag of `v` nor `Any`; otherwise it
returns `v` itself with the exception `Nothing`. -/
theorem runWithArgs_return_type (H : Host F) (execute : Executor F) (f : Function)
    (init : List (Item F)) (hlen : init.length = f.args.length)
    (hmatch : argumentsMatch f.args init = true) (v : Item F) (e : Exception)
    (hreturn : e.type = ExceptionType.RETURN)
    (hexecute : execute f.representation (bindArguments f.args init) =
      { exception := e, item := v }) :
    ((runWithArgs H execute f init).exception.type = ExceptionType.TypeError ↔
      (v.type ∉ f.type ∧ "Any" ∉ f.type)) ∧
    (¬(v.type ∉ f.type ∧ "Any" ∉ f.type) →
      runWithArgs H execute f init = FunctionReturned.ofItem H v) := by
  rw [runWithArgs_checked H execute f init hlen hmatch, hexecute,
    interpretResult_return H f _ hreturn]
  by_cases hc : v.type ∉ f.type ∧ "Any" ∉ f.type
  · simp [hc, FunctionReturned.ofException, Exception.ofType]
  · simp [hc, FunctionReturned.ofItem, Exception.ofType]

/-- C15 in the sample: the body returns the `Int` 1; the function declared to
return `Int` returns it, the same function declared to return `String` fails
with `TypeError`. -/
theorem runWithArgs_return_type_witness :
    runWithArgs sampleHost sampleExecutor sampleFunction [sampleInt 1, sampleInt 2] =
        FunctionReturned.ofItem sampleHost (sampleInt 1) ∧
      (runWithArgs sampleHost sampleExecutor { sampleFunction with type := ["String"] }
        [sampleInt 1, sampleInt 2]).exception.type = ExceptionType.TypeError :=
  ⟨(runWithArgs_return_type sampleHost sampleExecutor sampleFunction
      [sampleInt 1, sampleInt 2] rfl (by decide) (sampleInt 1)
      (Exception.ofType sampleHost ExceptionType.RETURN) rfl rfl).2 (by decide),
   (runWithArgs_return_type sampleHost sampleExecutor { sampleFunction with type := ["String"] }
      [sampleInt 1, sampleInt 2] rfl (by decide) (sampleInt 1)
      (Exception.ofType sampleHost ExceptionType.RETURN) rfl rfl).1.2 (by decide)⟩

/-- C16: past the arity and type checks, when the executor returns the signal
`Nothing`, `runWithArgs` fails with `EndOfFunction` if and only if the declared
return types hold neither `Unit` nor `Any`; otherwise it returns with the
exception `Nothing`. -/
theorem runWithArgs_fall_through (H : Host F) (execute : Executor F) (f : Function)
    (init : List (Item F)) (hlen : init.length = f.args.length)
    (hmatch : argumentsMatch f.args init = true)
    (hnothing : (execute f.representation (bindArguments f.args init)).exception.type =
      ExceptionType.Nothing) :
    ((runWithArgs H execute f init).exception.type = ExceptionType.EndOfFunction ↔
      ("Unit" ∉ f.type ∧ "Any" ∉ f.type)) ∧
    (¬("Unit" ∉ f.type ∧ "Any" ∉ f.type) →
      (runWithArgs H execute f init).exception.type = ExceptionType.Nothing) := by
  rw [runWithArgs_checked H execute f init hlen hmatch, interpretResult_nothing H f _ hnothing]
  by_cases hc : "Unit" ∉ f.type ∧ "Any" ∉ f.type
  · simp [hc, FunctionReturned.ofException, Exception.ofType]
  · simp [hc, FunctionReturned.ofException, Exception.ofType]

/-- C16 in the sample: the body falls through; the function declared to return
`Int` fails with `EndOfFunction`, the same function declared to return `Unit`
does not. -/
theorem runWithArgs_fall_through_witness :
    (runWithArgs sampleHost
        (fun _ _ => { exception := Exception.ofType sampleHost ExceptionType.Nothing,
                      item := sampleInt 0 })
        sampleFunction [sampleInt 1, sampleInt 2]).exception.type =
        ExceptionType.EndOfFunction ∧
      (runWithArgs sampleHost
        (fun _ _ => { exception := Exception.ofType sampleHost ExceptionType.Nothing,
                      item := sampleInt 0 })
        { sampleFunction with type := ["Unit"] } [sampleInt 1, sampleInt 2]).exception.type =
        ExceptionType.Nothing :=
  ⟨(runWithArgs_fall_through sampleHost _ sampleFunction [sampleInt 1, sampleInt 2] rfl
      (by decide) rfl).1.2 (by decide),
   (runWithArgs_fall_through sampleHost _ { sampleFunction with type := ["Unit"] }
      [sampleInt 1, sampleInt 2] rfl (by decide) rfl).2 (by decide)⟩

/-- C17: past the arity and type checks, when the executor returns an
exception of a kind `k` other than `Nothing` and `RETURN` at line `n`,
`runWithArgs` returns an exception of the kind `k` at line `n + f.startIndex`,
whatever the declared return types. -/
theorem runWithArgs_rebases_line (H : Host F) (execute : Executor F) (f : Function)
    (init : List (Item F)) (hlen : init.length = f.args.length)
    (hmatch : argumentsMatch f.args init = true)
    (k : ExceptionType) (n : Int) (hk : k ≠ ExceptionType.Nothing)
    (hk' : k ≠ ExceptionType.RETURN)
    (hexecute : (execute f.representation (bindArguments f.args init)).exception =
      { type := k, line := n }) :
    (runWithArgs H execute f init).exception = { type := k, line := n + f.startIndex } := by
  rw [runWithArgs_checked H execute f init hlen hmatch]
  unfold interpretResult
  simp [hexecute, hk, hk', FunctionReturned.ofException]

/-- C17 in the sample: a `ZeroDivisionError` at line 3 of a body that starts
at line 10 is reported at line 13. -/
theorem runWithArgs_rebases_line_witness :
    (runWithArgs sampleHost
        (fun _ _ => { exception := { type := ExceptionType.ZeroDivisionError, line := 3 },
                      item := sampleInt 0 })
        sampleFunction [sampleInt 1, sampleInt 2]).exception =
      { type := ExceptionType.ZeroDivisionError, line := 3 + 10 } :=
  runWithArgs_rebases_line sampleHost _ sampleFunction [sampleInt 1, sampleInt 2] rfl
    (by decide) ExceptionType.ZeroDivisionError 3 (by decide) (by decide) rfl

/-! ## The name resolver and the parser: lemmas and claims -/

/-- A name outside the built-in functions that no scope binds is a class or
undeclared. -/
theorem nameDeclaration_unbound (R : Registries) (sm : ScopeManager F) (name : String)
    (hbuiltin : name ∉ R.BuiltInFunctions) (hfind : sm.find name = false) :
    nameDeclaration R sm name = some nameType.DeclaredClass ∨
      nameDeclaration R sm name = some nameType.Undeclared := by
  unfold nameDeclaration
  rw [if_neg hbuiltin, hfind]
  by_cases hclass : name ∈ R.Classes ∨ name ∈ R.BuiltInClasses
  · left; simp [hclass]
  · right; simp [hclass]

/-- Where the guard of line 573 does protect the `get` of line 582: when
`nameDeclaration(name)` is `DeclaredVariable`, or is `DeclaredFunction` for a
name that is no built-in function, `scopeManager.find(name)` is true and
`scopeManager.get(name)` returns a variable. -/
theorem nameDeclaration_bound (R : Registries) (sm : ScopeManager F) (name : String)
    (h : nameDeclaration R sm name = some nameType.DeclaredVariable ∨
      (nameDeclaration R sm name = some nameType.DeclaredFunction ∧
        name ∉ R.BuiltInFunctions)) :
    sm.find name = true ∧ ∃ v, sm.get name = some v := by
  have hfind : sm.find name = true := by
    by_contra hnot
    have hfalse : sm.find name = false := by simpa using hnot
    have hbuiltin : name ∉ R.BuiltInFunctions := by
      rcases h with h | ⟨_, h⟩
      · intro hin
        simp [nameDeclaration, hin] at h
      · exact h
    rcases nameDeclaration_unbound R sm name hbuiltin hfalse with h' | h' <;>
      rcases h with h | ⟨h, _⟩ <;> rw [h'] at h <;> cases h
  refine ⟨hfind, ?_⟩
  rw [ScopeManager.find_eq_isSome] at hfind
  exact Option.isSome_iff_exists.1 hfind

/-- The name branch of `parseExpression` has no result on a declared name that
no scope binds and that neither `.` nor `=` follows: line 582 calls
`scopeManager.get`, which reaches `assert(false)`. -/
theorem parseName_unbound (P : Parsers F) (input : List Token) (token nextToken : Token)
    (st : ParseState F) (declaration : nameType)
    (hdeclared : nameDeclaration st.world.registries st.world.scopeManager token.source =
      some declaration)
    (hnot : declaration ≠ nameType.Undeclared)
    (hfind : st.world.scopeManager.find token.source = false)
    (hmember : nextToken.source ≠ ".") (hassign : nextToken.source ≠ "=") :
    parseName P input token nextToken st = none := by
  have hget : st.world.scopeManager.get token.source = none := by
    have h := ScopeManager.find_eq_isSome st.world.scopeManager token.source
    rw [hfind] at h
    cases hg : st.world.scopeManager.get token.source with
    | none => rfl
    | some v => rw [hg] at h; cases h
  simp [parseName, hdeclared, hnot, hmember, hassign, hget]

/-- In every host, `parseExpression` entered at cursor 0 on a bare `Name` token
(no `(`, `[`, `.` or `=` follows) that `nameDeclaration` declares and no scope
binds has no result: it reaches the `assert(false)` of `ScopeManager::get`. -/
theorem parseExpression_bare_name (H : Host F) (P : Parsers F) (input : List Token)
    (world : World F) (token following : Token) (declaration : nameType)
    (htoken : tokenAt input 0 = some token) (hfollowing : tokenAt input 1 = some following)
    (hlast : (0 : Int) < (input.length : Int) - 1)
    (hname : token.type = TokenType.Name)
    (hcall : following.source ≠ "(") (hdot : following.source ≠ ".")
    (hindex : (P.next input 0).source ≠ "[") (hmember : (P.next input 0).source ≠ ".")
    (hassign : (P.next input 0).source ≠ "=")
    (hsource : token.source ≠ "[" ∧ token.source ≠ "if" ∧ token.source ≠ "lambda")
    (hdeclared : nameDeclaration world.registries world.scopeManager token.source =
      some declaration)
    (hnot : declaration ≠ nameType.Undeclared)
    (hfind : world.scopeManager.find token.source = false) (fuel : Nat) :
    parseExpression H P input 0 world (fuel + 1) = Run.undefined := by
  have hparse := parseName_unbound P input token (P.next input 0)
    { index := 0, content := [], bracketStack := pushBracket P token [], world := world }
    declaration hdeclared hnot hfind hmember hassign
  have hstep : parseStep H P input 0
      { index := 0, content := [], bracketStack := [], world := world } = none := by
    by_cases hobject : P.isObject token = true
    · simp [parseStep, htoken, parseDispatch, hobject, hfollowing, hcall, hdot, hindex,
        hsource.1, hsource.2.1, hsource.2.2, hname, hparse]
    · simp [parseStep, htoken, parseDispatch, hobject, hsource.1, hsource.2.1, hsource.2.2,
        hname, hparse]
  simp [parseExpression, htoken, parseLoop, hlast, hstep]

/-- C19 at the bare names `print` and `Object`, a built-in function and a
built-in class that no scope binds: `nameDeclaration` is not `Undeclared`, so
the guard of line 573 passes, yet `scopeManager.find` is false and the
`scopeManager.get` of line 582 reaches `assert(false)`: `parseExpression` has
no result on `print ;` and on `Object ;`. -/
theorem nameDeclaration_builtin_unbound :
    nameDeclaration sampleRegistries sampleEmptyWorld.scopeManager "print" =
        some nameType.DeclaredFunction ∧
      sampleEmptyWorld.scopeManager.find "print" = false ∧
      sampleEmptyWorld.scopeManager.get "print" = none ∧
      parseExpression sampleHost sampleParsers [sampleName "print", sampleEnd, sampleEnd] 0
        sampleEmptyWorld 1 = Run.undefined ∧
      nameDeclaration sampleRegistries sampleEmptyWorld.scopeManager "Object" =
        some nameType.DeclaredClass ∧
      sampleEmptyWorld.scopeManager.find "Object" = false ∧
      parseExpression sampleHost sampleParsers [sampleName "Object", sampleEnd, sampleEnd] 0
        sampleEmptyWorld 1 = Run.undefined :=
  ⟨by decide, by decide, by decide, rfl, by decide, by decide, rfl⟩

/-- From a state whose iteration continues into a state of the same kind, with
the cursor before the end, the loop of `parseExpression` outlasts any fuel. -/
theorem parseLoop_stuck (H : Host F) (P : Parsers F) (input : List Token)
    (firstIndex last : Int) (stuck : ParseState F → Prop)
    (hstuck : ∀ st, stuck st → st.index < last ∧
      ∃ st', parseStep H P input firstIndex st = some (ParseStep.continued st') ∧ stuck st')
    (fuel : Nat) (st : ParseState F) (hst : stuck st) :
    parseLoop H P input firstIndex last fuel st = Run.outOfFuel := by
  induction fuel generalizing st with
  | zero =>
    simp [parseLoop, (hstuck st hst).1]
  | succ fuel ih =>
    obtain ⟨hlt, st', hstep, hst'⟩ := hstuck st hst
    simp only [parseLoop, hlt, if_true, hstep]
    exact ih st' hst'

/-- In every host, `parseExpression` entered at cursor 0 on an object token
that `next` shows followed by `[` (and `input[1]` is not `(`) never returns:
lines 533-536 `continue` with the cursor unchanged. -/
theorem parseExpression_stuck_at_index (H : Host F) (P : Parsers F) (input : List Token)
    (world : World F) (token following : Token)
    (htoken : tokenAt input 0 = some token) (hfollowing : tokenAt input 1 = some following)
    (hlast : (0 : Int) < (input.length : Int) - 1)
    (hobject : P.isObject token = true) (hcall : following.source ≠ "(")
    (hnext : (P.next input 0).source = "[") (fuel : Nat) :
    parseExpression H P input 0 world fuel = Run.outOfFuel := by
  unfold parseExpression
  rw [htoken]
  refine parseLoop_stuck H P input 0 _ (fun st => st.index = 0) ?_ fuel _ rfl
  rintro ⟨index, content, bracketStack, w⟩ hindex
  simp only at hindex
  subst hindex
  refine ⟨hlast, ⟨{ index := 0, content := content,
                    bracketStack := pushBracket P token bracketStack, world := w }, ?_, rfl⟩⟩
  simp [parseStep, htoken, parseDispatch, hobject, hfollowing, hcall, hnext]

/-- C20 fails on `a [ 0 ] ;`, on `a . b ;` and on `[ 1 ] ;`: the iteration at
cursor 0 continues with the cursor still at 0, so that `parseExpression` does
not return within any number of iterations. -/
theorem parseExpression_does_not_advance (fuel : Nat) :
    parseExpression sampleHost sampleParsers
        [sampleName "a", sampleToken "[", sampleToken "0", sampleToken "]", sampleEnd] 0
        sampleWorld fuel = Run.outOfFuel ∧
      parseExpression sampleHost sampleParsers
        [sampleName "a", sampleToken ".", sampleName "b", sampleEnd] 0
        sampleWorld fuel = Run.outOfFuel ∧
      parseExpression sampleHost sampleParsers
        [sampleToken "[", sampleToken "1", sampleToken "]", sampleEnd] 0
        sampleWorld fuel = Run.outOfFuel := by
  refine ⟨?_, ?_, ?_⟩
  · exact parseLoop_stuck sampleHost sampleParsers _ 0 _ (fun st => st = sampleStart)
      (fun st hst => by subst hst; exact ⟨by decide, sampleStart, rfl, rfl⟩) fuel sampleStart rfl
  · exact parseLoop_stuck sampleHost sampleParsers _ 0 _ (fun st => st = sampleStart)
      (fun st hst => by subst hst; exact ⟨by decide, sampleStart, rfl, rfl⟩) fuel sampleStart rfl
  · refine parseLoop_stuck sampleHost sampleParsers _ 0 _
      (fun st => st.index = 0 ∧ st.world = sampleWorld) ?_ fuel sampleStart ⟨rfl, rfl⟩
    rintro ⟨index, content, bracketStack, world⟩ ⟨hindex, hworld⟩
    simp only at hindex hworld
    subst hindex hworld
    refine ⟨by show (0 : Int) < _; decide, ?_⟩
    exact ⟨{ index := 0, content := content,
             bracketStack := pushBracket sampleParsers (sampleToken "[") bracketStack,
             world := sampleWorld }, rfl, rfl, rfl⟩

end Neko
